import Mathlib

/-!
Shallow embedding of the tabular data-transformation layer of the
`public-data-lab` dashboard (modules `modulo_sgs.py`, `modulo_taxas.py`,
`modulo_inad.py`, `modulo_ifdata.py`), together with proofs about it.

Conventions of the embedding:
* numeric cell values are `ℚ`; a missing value (pandas `NaN`/`None`) is
  `Option.none`;
* a long-format table is a `List` of row structures; insertion-ordered
  Python dictionaries are association lists (`List (κ × β)`);
* Python's stable `sorted` (and `DataFrame.sort_values`, whose tie order the
  specification stipulates as stable) is an insertion sort `stableSort`;
* string manipulation is performed on the underlying character lists, since
  the corresponding `String` functions do not reduce in the kernel.
-/

/-- Stable insertion of `a` into `l`: `a` is placed before the first element
`b` with `le a b`, so among elements that compare equal the earlier-inserted
one stays first, matching Python's stable `sorted`. -/
def insertSorted (le : α → α → Prop) [DecidableRel le] (a : α) : List α → List α
  | [] => [a]
  | b :: t => if le a b then a :: b :: t else b :: insertSorted le a t

/-- Stable sort by the (total, transitive) relation `le`. -/
def stableSort (le : α → α → Prop) [DecidableRel le] : List α → List α
  | [] => []
  | a :: t => insertSorted le a (stableSort le t)

/-- Python `dict` assignment `d[k] = v`: update in place when the key exists,
otherwise append the new binding (dictionaries preserve insertion order). -/
def dictInsert [DecidableEq κ] (k : κ) (v : β) : List (κ × β) → List (κ × β)
  | [] => [(k, v)]
  | (k', v') :: t => if k' = k then (k, v) :: t else (k', v') :: dictInsert k v t

/-- `drop_duplicates(subset=[key])` with pandas' default `keep="first"`:
retain the first row carrying each key. `seen` accumulates keys already kept. -/
def dropDupFirstAux [DecidableEq κ] (key : α → κ) (seen : List κ) : List α → List α
  | [] => []
  | a :: t =>
    if key a ∈ seen then dropDupFirstAux key seen t
    else a :: dropDupFirstAux key (key a :: seen) t

def dropDupFirst [DecidableEq κ] (key : α → κ) (l : List α) : List α :=
  dropDupFirstAux key [] l

/-! ### `modulo_sgs.py` — magnitude-based axis partitioner and resampling -/
/-- A data-frame column as used by the SGS module: the sequence of
(possibly missing) cell values. -/
abbrev DFCol := List (Option ℚ)

/-- A date-indexed frame: named columns (the index itself is irrelevant to
`should_use_dual_axis`). A column name not present behaves as an all-missing
column (a `KeyError` is outside the modelled behaviour). -/
abbrev DFrame := List (String × DFCol)

/-- `df[col].dropna().abs().mean()`: `none` when every cell is missing —
pandas returns `NaN` there, which fails the `m > 0` test downstream exactly
as `none` does here. -/
def colAbsMean (df : DFrame) (c : String) : Option ℚ :=
  let xs := ((df.lookup c).getD []).filterMap id
  if xs.isEmpty then none else some ((xs.map (|·|)).sum / xs.length)

/-- The `means` dictionary of `should_use_dual_axis`: the qualifying columns
(those whose absolute mean exists and is `> 0`) with their means, in the
order of `columns`. -/
def duaxMeans (df : DFrame) (columns : List String) : List (String × ℚ) :=
  columns.filterMap (fun c =>
    (colAbsMean df c).bind (fun m => if 0 < m then some (c, m) else none))

/-- `sorted(means.items(), key=lambda x: x[1])` — stable, ascending by mean. -/
def duaxSorted (df : DFrame) (columns : List String) : List (String × ℚ) :=
  stableSort (fun a b => a.2 ≤ b.2) (duaxMeans df columns)

def duaxMinMean (df : DFrame) (columns : List String) : ℚ :=
  (((duaxSorted df columns).head?).map (·.2)).getD 0

def duaxMaxMean (df : DFrame) (columns : List String) : ℚ :=
  (((duaxSorted df columns).getLast?).map (·.2)).getD 0

/-- Ratios of consecutive sorted means. The source works with differences of
`log10` of the means; since `log10` is strictly increasing on positives,
`log10 b - log10 a < log10 d - log10 c ↔ b / a < d / c`, so every comparison
the loop makes is carried out here on the corresponding ratio. -/
def consecRatios : List ℚ → List ℚ
  | a :: b :: t => (b / a) :: consecRatios (b :: t)
  | _ => []

/-- The gap-scan loop: state is (best ratio so far, its split index); the
source's initial `best_gap = 0` is ratio `1`, `best_split = 1`; `i` is the
split index of the next candidate ratio. Update on a strictly larger gap. -/
def gapScanAux : ℚ × ℕ → ℕ → List ℚ → ℚ × ℕ
  | best, _, [] => best
  | (br, bs), i, r :: t =>
    if br < r then gapScanAux (r, i) (i + 1) t else gapScanAux (br, bs) (i + 1) t

/-- Best (largest) consecutive gap of `should_use_dual_axis`, as a ratio. -/
def duaxBest (df : DFrame) (columns : List String) : ℚ × ℕ :=
  gapScanAux (1, 1) 1 (consecRatios ((duaxSorted df columns).map (·.2)))

/-- `best_gap < 0.7` in `log10` space, expressed on the ratio:
for `r > 0`, `log10 r < 7/10 ↔ r ^ 10 < 10 ^ 7` (see `gapBelowThreshold_iff_logb`). -/
def gapBelowThreshold (r : ℚ) : Prop := r ^ 10 < 10 ^ 7

instance : DecidablePred gapBelowThreshold := fun r =>
  inferInstanceAs (Decidable (r ^ 10 < 10 ^ 7))

/-- `group_low`: the `best_split` smallest-magnitude columns. -/
def duaxGroupLow (df : DFrame) (columns : List String) : List String :=
  ((duaxSorted df columns).take (duaxBest df columns).2).map (·.1)

/-- `group_high`: the remaining (larger-magnitude) columns. -/
def duaxGroupHigh (df : DFrame) (columns : List String) : List String :=
  ((duaxSorted df columns).drop (duaxBest df columns).2).map (·.1)

/-- `should_use_dual_axis(df, columns)` from `modulo_sgs.py`: returns
`(use_dual, primary_cols, secondary_cols)`. -/
def should_use_dual_axis (df : DFrame) (columns : List String) :
    Bool × List String × List String :=
  if columns.length < 2 then (false, columns, [])
  else if (duaxMeans df columns).length < 2 then (false, columns, [])
  else if duaxMaxMean df columns / duaxMinMean df columns ≤ 5 then (false, columns, [])
  else if gapBelowThreshold (duaxBest df columns).1 then (false, columns, [])
  else if (duaxGroupLow df columns).length ≤ (duaxGroupHigh df columns).length then
    (true, duaxGroupHigh df columns, duaxGroupLow df columns)
  else
    (true, duaxGroupLow df columns, duaxGroupHigh df columns)

/-- Calendar date of a series index entry. -/
structure SDate where
  year : ℕ
  month : ℕ
  day : ℕ
deriving DecidableEq

/-- Month bin key of `resample('ME')`: months since year 0. -/
def monthKey (d : SDate) : ℕ := d.year * 12 + (d.month - 1)

/-- Year bin key of `resample('YE')`. -/
def yearKey (d : SDate) : ℕ := d.year

/-- The observations of series `s` that fall in bin `k`. -/
def periodCells (key : SDate → ℕ) (s : List (SDate × ℚ)) (k : ℕ) : List ℚ :=
  s.filterMap (fun p => if key p.1 = k then some p.2 else none)

def seriesLoKey (key : SDate → ℕ) (s : List (SDate × ℚ)) : ℕ :=
  match s.map (fun p => key p.1) with
  | [] => 0
  | k :: ks => ks.foldl min k

def seriesHiKey (key : SDate → ℕ) (s : List (SDate × ℚ)) : ℕ :=
  match s.map (fun p => key p.1) with
  | [] => 0
  | k :: ks => ks.foldl max k

/-- `df.resample(freq).mean()` for a calendar frequency: pandas lays out every
bin between the first and the last index entry and aggregates each bin with
the arithmetic mean; a bin with no observations yields a `NaN` row (`none`
here) — it is present in the output, not dropped. -/
def resampleBy (key : SDate → ℕ) (s : List (SDate × ℚ)) : List (ℕ × Option ℚ) :=
  match s with
  | [] => []
  | _ :: _ =>
    let lo := seriesLoKey key s
    let hi := seriesHiKey key s
    (List.range' lo (hi + 1 - lo)).map (fun k =>
      (k, let vs := periodCells key s k
          if vs.isEmpty then none else some (vs.sum / vs.length)))

/-- `resample_data(df, freq)` from `modulo_sgs.py`: `freq_map = {"M": "ME",
"A": "YE"}` followed by `df.resample(pd_freq).mean()`. Any other frequency
string is handed to pandas unchanged and is outside this embedding (`none`). -/
def resample_data (s : List (SDate × ℚ)) (freq : String) : Option (List (ℕ × Option ℚ)) :=
  if freq = "M" then some (resampleBy monthKey s)
  else if freq = "A" then some (resampleBy yearKey s)
  else none

/-! ### `modulo_taxas.py` — latest-snapshot filter -/
/-- `get_latest_data(df, date_col)`: `df[date_col].max()` over the rows
(`dateOf` reads the named date column; dates are modelled as rationals). -/
def tableMaxDate (rows : List α) (dateOf : α → ℚ) : ℚ :=
  match rows with
  | [] => 0
  | r :: t => (t.map dateOf).foldl max (dateOf r)

/-- `get_latest_data(df, date_col)` from `modulo_taxas.py`: an empty table is
returned unchanged; otherwise the boolean-mask filter
`df[df[date_col] == max_date]`. -/
def get_latest_data (rows : List α) (dateOf : α → ℚ) [DecidableEq α] : List α :=
  match rows with
  | [] => []
  | r :: t =>
    (r :: t).filter (fun x => dateOf x = tableMaxDate (r :: t) dateOf)

/-! ### `modulo_inad.py` — geo-shading classifier -/
def REGIONS : List (String × List String) :=
  [("N", ["AC", "AP", "AM", "PA", "RO", "RR", "TO"]),
   ("NE", ["AL", "BA", "CE", "MA", "PB", "PE", "PI", "RN", "SE"]),
   ("CO", ["DF", "GO", "MT", "MS"]),
   ("SE", ["ES", "MG", "RJ", "SP"]),
   ("S", ["PR", "RS", "SC"])]

/-- `STATE_TO_REGION`, built by the module-level loop over `REGIONS`. -/
def STATE_TO_REGION : List (String × String) :=
  REGIONS.foldl (fun acc p => p.2.foldl (fun acc' uf => dictInsert uf p.1 acc') acc) []

/-- Byte-wise (code-point) comparison of strings, used to model Python's
`sorted` on state codes (all ASCII here). -/
def charListBle : List Char → List Char → Bool
  | [], _ => true
  | _ :: _, [] => false
  | a :: as, b :: bs => if a < b then true else if b < a then false else charListBle as bs

def strBle (a b : String) : Bool := charListBle a.data b.data

/-- `ALL_STATES = sorted(STATE_TO_REGION.keys())`. -/
def ALL_STATES : List String :=
  stableSort (fun a b => strBle a b = true) (STATE_TO_REGION.map (·.1))

/-- Latest PF/PJ values per state, as passed to `make_brazil_map`:
`state_data[uf] = {"pf": ..., "pj": ...}` with missing entries `none`. -/
abbrev StateData := List (String × (Option ℚ × Option ℚ))

/-- The state's NPL average `float(np.mean(vals))` over the present values of
`[pf, pj]`; `none` when both are missing. -/
def nplAvg (sd : StateData) (uf : String) : Option ℚ :=
  let pv := (sd.lookup uf).getD (none, none)
  let vals := [pv.1, pv.2].filterMap id
  if vals.isEmpty then none else some (vals.sum / vals.length)

/-- The non-missing NPL averages of the region's states, in `ALL_STATES`
order — the `vals` list of the per-region normalisation. -/
def regionNpls (sd : StateData) (reg : String) : List ℚ :=
  (ALL_STATES.filter (fun uf => STATE_TO_REGION.lookup uf = some reg)).filterMap (nplAvg sd)

/-- `region_ranges[reg]`: `(min(vals), max(vals))` when some value exists and
`max > min`, otherwise the default range `(0, 1)`. -/
def regionRange (sd : StateData) (reg : String) : ℚ × ℚ :=
  match regionNpls sd reg with
  | [] => (0, 1)
  | v :: vs =>
    let mn := vs.foldl min v
    let mx := vs.foldl max v
    if mn < mx then (mn, mx) else (0, 1)

/-- The shade factor computed for a state inside `make_brazil_map`:
`(npl_avg - rng[0]) / (rng[1] - rng[0])` when the state's value is present
and the range is non-degenerate, else `0.5`. -/
def state_factor (sd : StateData) (uf : String) : ℚ :=
  let reg := (STATE_TO_REGION.lookup uf).getD ""
  let rng := regionRange sd reg
  match nplAvg sd uf with
  | some v => if rng.1 < rng.2 then (v - rng.1) / (rng.2 - rng.1) else 1 / 2
  | none => 1 / 2

/-! ### `modulo_ifdata.py` — registry filter, merge & pivot, rankings -/
/-- Whitespace as stripped by Python's `str.strip()` (the characters that
occur in the data are covered by `Char.isWhitespace`). -/
def trimChars (cs : List Char) : List Char :=
  ((cs.dropWhile Char.isWhitespace).reverse.dropWhile Char.isWhitespace).reverse

/-- `str.strip()`. -/
def strTrim (s : String) : String := String.mk (trimChars s.data)

/-- Case-insensitive substring test: `Series.str.contains(pat, case=False)`
for a pattern without regex metacharacters. -/
def containsSub (needle hay : List Char) : Bool :=
  hay.tails.any (fun t => needle.isPrefixOf t)

def containsCI (s pat : String) : Bool :=
  containsSub (pat.data.map Char.toLower) (s.data.map Char.toLower)

/-- One occurrence of the regex `\s*[-–]\s*PRUDENCIAL` starting at the head of
`cs`: greedy whitespace, one dash, greedy whitespace, then the literal.
Returns the remainder after the match. -/
def matchPrud (cs : List Char) : Option (List Char) :=
  match cs.dropWhile Char.isWhitespace with
  | d :: rest2 =>
    if d = '-' ∨ d = '–' then
      if "PRUDENCIAL".data.isPrefixOf (rest2.dropWhile Char.isWhitespace) then
        some ((rest2.dropWhile Char.isWhitespace).drop 10)
      else none
    else none
  | [] => none

/-- `re.sub(r"\s*[-–]\s*PRUDENCIAL", "", s)`: scan left to right, removing
each non-overlapping occurrence. -/
def removePrud (l : List Char) : List Char :=
  match l with
  | [] => []
  | c :: cs =>
    match hm : matchPrud (c :: cs) with
    | some rest => removePrud rest
    | none => c :: removePrud cs
termination_by l.length
decreasing_by
  · have h := hm
    unfold matchPrud at h
    split at h
    · rename_i d rest2 heq
      split at h
      · split at h
        · simp only [Option.some.injEq] at h
          subst h
          have h1 : (d :: rest2).length ≤ (c :: cs).length := by
            rw [← heq]
            exact (List.dropWhile_sublist _).length_le
          have h3 : (rest2.dropWhile Char.isWhitespace).length ≤ rest2.length :=
            (List.dropWhile_sublist _).length_le
          have h4 : ((rest2.dropWhile Char.isWhitespace).drop 10).length ≤
              (rest2.dropWhile Char.isWhitespace).length :=
            (List.drop_sublist _ _).length_le
          simp only [List.length_cons] at h1 ⊢
          omega
        · exact absurd h (by simp)
      · exact absurd h (by simp)
    · exact absurd h (by simp)
  · simp

/-- `.str.replace(r"\s*[-–]\s*PRUDENCIAL", "", regex=True).str.strip()`,
applied to a present name (a missing name stays missing). -/
def cleanNome (s : String) : String := strTrim (String.mk (removePrud s.data))

/-- An `IfDataValores` row (the fields the module reads). `saldo` is
`pd.to_numeric(row.get("Saldo"), errors="coerce")`: `none` is NaN. -/
structure VRow where
  codInst : String
  nomeColuna : String
  saldo : Option ℚ
deriving DecidableEq

/-- An `IfDataCadastro` row (the fields the module reads). -/
structure CadRow where
  codInst : String
  nomeInstituicao : String
  sr : String
deriving DecidableEq

/-- A long-format record `{"CodInst": ..., "Variable": ..., "Value": ...}`. -/
structure Rec where
  codInst : String
  varName : String
  value : Option ℚ
deriving DecidableEq

def RESUMO_VARS : List String :=
  ["Ativo Total", "Captações", "Patrimônio Líquido", "Lucro Líquido",
   "Índice de Basileia"]

def ATIVO_COL_OP_CREDITO : String := "Operações de Crédito \n(e)"

def ATIVO_COL_BRUTO : String := "Valor Contábil Bruto \n(e1)"

def ATIVO_COL_PERDA : String := "Perda Esperada \n(e2)"

def ativoTargets : List String := [ATIVO_COL_OP_CREDITO, ATIVO_COL_BRUTO, ATIVO_COL_PERDA]

/-- `RANKING_DESC`: `True` = descending ("Maiores" = largest), except the
expected-loss ratio where lower is better. -/
def RANKING_DESC : List (String × Bool) :=
  [("Ativo Total", true), ("Captações", true), ("Patrimônio Líquido", true),
   ("Lucro Líquido", true), ("Índice de Basileia", true),
   ("Operações de Crédito", true), ("Perda Esperada de Crédito", false)]

/-- `RANKING_DESC.get(var, True)`. -/
def isDescFor (var : String) : Bool := (RANKING_DESC.lookup var).getD true

/-- Python `round(x)`: nearest integer, ties to the even integer. -/
def pyRoundHalfEven (q : ℚ) : ℤ :=
  if q - ⌊q⌋ < 1 / 2 then ⌊q⌋
  else if 1 / 2 < q - ⌊q⌋ then ⌊q⌋ + 1
  else if ⌊q⌋ % 2 = 0 then ⌊q⌋ else ⌊q⌋ + 1

/-- Python `round(x, 2)`. -/
def pyRound2 (q : ℚ) : ℚ := (pyRoundHalfEven (q * 100) : ℚ) / 100

/-- The Resumo loop of `build_ranking_data`: keep rows of qualifying
institutions whose (stripped) `NomeColuna` is a recognised Resumo variable;
`Índice de Basileia` arrives as a fraction and is unit-corrected to percent. -/
def resumoRecords (dfResumo : List VRow) (validCodes : List String) : List Rec :=
  dfResumo.filterMap (fun row =>
    if row.codInst ∈ validCodes then
      let varName := strTrim row.nomeColuna
      if varName ∈ RESUMO_VARS then
        some ⟨row.codInst, varName,
          if varName = "Índice de Basileia" then row.saldo.map (· * 100) else row.saldo⟩
      else none
    else none)

/-- The Ativo pre-pass of `build_ranking_data`: `ativo_data[cod][col] = saldo`
for qualifying rows over the three target columns (later rows overwrite). -/
def ativoData (dfAtivo : List VRow) (validCodes : List String) :
    List (String × List (String × Option ℚ)) :=
  dfAtivo.foldl (fun d row =>
    if row.codInst ∈ validCodes ∧ row.nomeColuna ∈ ativoTargets then
      dictInsert row.codInst
        (dictInsert row.nomeColuna row.saldo ((d.lookup row.codInst).getD [])) d
    else d) []

/-- The record-emission loop over `ativo_data.items()`: an `Operações de
Crédito` record when that value is present, and a derived `Perda Esperada de
Crédito` record when both components are present and the denominator is
non-zero — otherwise no record at all. -/
def ativoChunk (cod : String) (vals : List (String × Option ℚ)) : List Rec :=
  (match (vals.lookup ATIVO_COL_OP_CREDITO).getD none with
   | some v => [⟨cod, "Operações de Crédito", some v⟩]
   | none => []) ++
  (match (vals.lookup ATIVO_COL_BRUTO).getD none,
         (vals.lookup ATIVO_COL_PERDA).getD none with
   | some b, some p =>
     if b ≠ 0 then [⟨cod, "Perda Esperada de Crédito", some (pyRound2 (|p| / b * 100))⟩]
     else []
   | _, _ => [])

def ativoRecords (dfAtivo : List VRow) (validCodes : List String) : List Rec :=
  (ativoData dfAtivo validCodes).flatMap (fun p => ativoChunk p.1 p.2)

/-- All long-format records of `build_ranking_data` (Resumo first, then the
Ativo loop, as in the source). -/
def buildRecords (dfResumo dfAtivo : List VRow) (validCodes : List String) : List Rec :=
  resumoRecords dfResumo validCodes ++ ativoRecords dfAtivo validCodes

/-- One cell of `pivot_table(index="CodInst", columns="Variable",
values="Value", aggfunc="first")`: the first non-null value of the group, a
NaN cell (`none`) when the group is empty or all-null. -/
def pivotCell (records : List Rec) (cod v : String) : Option ℚ :=
  ((records.filter (fun r => r.codInst = cod ∧ r.varName = v)).filterMap (·.value)).head?

/-- The sorted, de-duplicated column labels of the pivot. -/
def pivotCols (records : List Rec) : List String :=
  stableSort (fun a b => strBle a b = true) (dropDupFirst id (records.map (·.varName)))

/-- The sorted, de-duplicated row index (`CodInst`) of the pivot. -/
def pivotIndex (records : List Rec) : List String :=
  stableSort (fun a b => strBle a b = true) (dropDupFirst id (records.map (·.codInst)))

/-- A row of the Wide Analytical Table: an entity, its (possibly missing)
display name, and its non-null cells keyed by variable name. -/
structure WRow where
  codInst : String
  nome : Option String
  cells : List (String × ℚ)
deriving DecidableEq

/-- The Wide Analytical Table: the pivot's column labels plus its rows. A
pandas cell holding NaN is modelled as an absent entry of `cells`. -/
structure WTable where
  cols : List String
  rows : List WRow
deriving DecidableEq

/-- Reading one cell of a wide row (`none` = NaN). -/
def getCell (r : WRow) (v : String) : Option ℚ := r.cells.lookup v

/-- The merge step `df_pivot.merge(cad[["CodInst","NomeInstituicao"]],
on="CodInst", how="left")` followed by the name clean-up: each pivot row is
joined with every registry row sharing its `CodInst` (one output row per
match, or a single row with a missing name when there is none). -/
def mergeNames (prows : List WRow) (cad : List CadRow) : List WRow :=
  prows.flatMap (fun r =>
    match cad.filter (fun c => c.codInst = r.codInst) with
    | [] => [{ r with nome := none }]
    | m :: ms => (m :: ms).map (fun c => { r with nome := some (cleanNome c.nomeInstituicao) }))

/-- `build_ranking_data(df_resumo, df_ativo, df_cadastro_filtered)`. -/
def build_ranking_data (dfResumo dfAtivo : List VRow) (cadF : List CadRow) : WTable :=
  let validCodes := cadF.map (·.codInst)
  let records := buildRecords dfResumo dfAtivo validCodes
  if records.isEmpty then ⟨[], []⟩
  else
    let cols := pivotCols records
    let prows := (pivotIndex records).map (fun cod =>
      ⟨cod, none, cols.filterMap (fun v => (pivotCell records cod v).map ((v, ·)))⟩)
    ⟨cols, mergeNames prows cadF⟩

/-- `filter_institutions(df_cadastro)`: segments S1–S4, a case-insensitive
`PRUDENCIAL` name match, then `drop_duplicates(subset=["CodInst"])`. -/
def filter_institutions (cad : List CadRow) : List CadRow :=
  dropDupFirst (·.codInst)
    ((cad.filter (fun c => c.sr ∈ ["S1", "S2", "S3", "S4"])).filter
      (fun c => containsCI c.nomeInstituicao "PRUDENCIAL"))

/-- The materiality filter applied at the top of `render_ranking_tab`: each
threshold filter runs only when its column exists, with `fillna(0)`. -/
def materialityFilter (t : WTable) : WTable :=
  let r1 := if "Patrimônio Líquido" ∈ t.cols then
      t.rows.filter (fun r => 100000000 < (getCell r "Patrimônio Líquido").getD 0)
    else t.rows
  let r2 := if "Operações de Crédito" ∈ t.cols then
      r1.filter (fun r => 200000000 < (getCell r "Operações de Crédito").getD 0)
    else r1
  let r3 := if "Ativo Total" ∈ t.cols then
      r2.filter (fun r => 1000000000 < (getCell r "Ativo Total").getD 0)
    else r2
  ⟨t.cols, r3⟩

/-- `df_ranking[["NomeInstituicao", var]].dropna(subset=[var])`: the rows with
a non-null value for `var` (rows are kept whole; the rendering reads only the
name and the value). -/
def dfVar (t : WTable) (var : String) : List WRow :=
  t.rows.filter (fun r => (getCell r var).isSome)

/-- `sort_values(var, ascending=False)` (ties stable, as the specification
stipulates). -/
def sortDescBy (l : List WRow) (var : String) : List WRow :=
  stableSort (fun a b => (getCell b var).getD 0 ≤ (getCell a var).getD 0) l

/-- `sort_values(var, ascending=True)`. -/
def sortAscBy (l : List WRow) (var : String) : List WRow :=
  stableSort (fun a b => (getCell a var).getD 0 ≤ (getCell b var).getD 0) l

/-- The full ranking of the non-null rows in the variable's configured
direction (rank 1 = most extreme; `render_ranking_table` numbers the sorted
rows `i + 1`). -/
def fullRanking (t : WTable) (var : String) : List WRow :=
  if isDescFor var then sortDescBy (dfVar t var) var else sortAscBy (dfVar t var) var

/-- The 1-based position of row `r` in the full ranking. -/
def positionInRanking (t : WTable) (var : String) (r : WRow) : ℕ :=
  (fullRanking t var).indexOf r + 1

/-- The `df_top` table of `render_ranking_tab` (10 most extreme in the
configured direction), computed after the materiality filter. -/
def df_top (t : WTable) (var : String) : List WRow :=
  let l := dfVar (materialityFilter t) var
  (if isDescFor var then sortDescBy l var else sortAscBy l var).take 10

/-- The `df_bottom` table of `render_ranking_tab` (opposite tail). -/
def df_bottom (t : WTable) (var : String) : List WRow :=
  let l := dfVar (materialityFilter t) var
  (if isDescFor var then sortAscBy l var else sortDescBy l var).take 10

/-- `df_var = df_ranking[[var]].dropna()` of `render_bank_tab`: the non-null
values of the column. -/
def bankVals (t : WTable) (var : String) : List ℚ :=
  t.rows.filterMap (fun r => getCell r var)

/-- The individual position of `render_bank_tab`:
`(df_var[var] > val).sum() + 1` (descending) or `(df_var[var] < val).sum() + 1`
(ascending). -/
def bank_rank (t : WTable) (var : String) (v : ℚ) : ℕ :=
  (if isDescFor var then (bankVals t var).countP (fun w => decide (v < w))
   else (bankVals t var).countP (fun w => decide (w < v))) + 1

/-- `n = len(df_var)`: the position denominator of `render_bank_tab`. -/
def bank_n (t : WTable) (var : String) : ℕ := (bankVals t var).length

/-! ### Theorems -/

theorem insertSorted_perm (le : α → α → Prop) [DecidableRel le] (a : α) (l : List α) :
    (insertSorted le a l).Perm (a :: l) := by
  induction l with
  | nil => simp [insertSorted]
  | cons b t ih =>
    simp only [insertSorted]
    split
    · exact List.Perm.refl _
    · exact (ih.cons b).trans (List.Perm.swap a b t)

theorem stableSort_perm (le : α → α → Prop) [DecidableRel le] (l : List α) :
    (stableSort le l).Perm l := by
  induction l with
  | nil => simp [stableSort]
  | cons a t ih => exact (insertSorted_perm le a (stableSort le t)).trans (ih.cons a)

theorem mem_insertSorted (le : α → α → Prop) [DecidableRel le] (a x : α) (l : List α) :
    x ∈ insertSorted le a l ↔ x = a ∨ x ∈ l := by
  rw [(insertSorted_perm le a l).mem_iff]
  simp

theorem mem_stableSort (le : α → α → Prop) [DecidableRel le] (x : α) (l : List α) :
    x ∈ stableSort le l ↔ x ∈ l :=
  (stableSort_perm le l).mem_iff

theorem insertSorted_pairwise (le : α → α → Prop) [DecidableRel le]
    (htot : ∀ a b, ¬ le a b → le b a)
    (htrans : ∀ a b c, le a b → le b c → le a c)
    (a : α) (l : List α) (hl : l.Pairwise le) :
    (insertSorted le a l).Pairwise le := by
  induction l with
  | nil => simp [insertSorted]
  | cons b t ih =>
    obtain ⟨hb, ht⟩ := List.pairwise_cons.mp hl
    simp only [insertSorted]
    split
    · rename_i hab
      refine List.Pairwise.cons ?_ hl
      intro x hx
      rcases List.mem_cons.mp hx with rfl | hx
      · exact hab
      · exact htrans a b x hab (hb x hx)
    · rename_i hab
      refine List.Pairwise.cons ?_ (ih ht)
      intro x hx
      rcases (mem_insertSorted le a x t).mp hx with h | hx
      · subst h
        exact htot _ b hab
      · exact hb x hx

theorem stableSort_pairwise (le : α → α → Prop) [DecidableRel le]
    (htot : ∀ a b, ¬ le a b → le b a)
    (htrans : ∀ a b c, le a b → le b c → le a c)
    (l : List α) : (stableSort le l).Pairwise le := by
  induction l with
  | nil => simp [stableSort]
  | cons a t ih => exact insertSorted_pairwise le htot htrans a (stableSort le t) ih

/-- In a weakly descending list, the index of an element whose key occurs
nowhere else (other elements may be tied among themselves) equals the number
of elements with a strictly larger key. -/
theorem indexOf_eq_countP_gt [DecidableEq α] (key : α → ℚ) (r : α) (l : List α)
    (hs : l.Pairwise (fun x y => key y ≤ key x))
    (hu : ∀ x ∈ l, key x = key r → x = r) (hr : r ∈ l) :
    l.indexOf r = l.countP (fun x => decide (key r < key x)) := by
  induction l with
  | nil => simp at hr
  | cons a t ih =>
    obtain ⟨hsa, hst⟩ := List.pairwise_cons.mp hs
    by_cases har : a = r
    · subst har
      rw [List.indexOf_cons_self, List.countP_cons]
      have h1 : t.countP (fun x => decide (key a < key x)) = 0 := by
        rw [List.countP_eq_zero]
        intro x hx
        simp only [decide_eq_true_eq]
        exact not_lt.mpr (hsa x hx)
      simp [h1]
    · have hrt : r ∈ t := by
        rcases List.mem_cons.mp hr with rfl | h
        · exact absurd rfl har
        · exact h
      rw [List.indexOf_cons_ne _ har, List.countP_cons]
      have hka' : key r < key a := by
        have h1 : key r ≤ key a := hsa r hrt
        have h2 : key a ≠ key r := fun h => har (hu a (List.mem_cons_self a t) h)
        exact lt_of_le_of_ne h1 (fun h => h2 h.symm)
      rw [ih hst (fun x hx h => hu x (List.mem_cons_of_mem a hx) h) hrt]
      simp [hka']

theorem dictInsert_keys [DecidableEq κ] (k : κ) (v : β) (d : List (κ × β)) :
    (dictInsert k v d).map Prod.fst =
      if k ∈ d.map Prod.fst then d.map Prod.fst else d.map Prod.fst ++ [k] := by
  induction d with
  | nil => simp [dictInsert]
  | cons p t ih =>
    obtain ⟨k', v'⟩ := p
    simp only [dictInsert]
    by_cases h : k' = k
    · subst h
      simp
    · simp only [if_neg h, List.map_cons, ih]
      by_cases hk : k ∈ t.map Prod.fst
      · simp [hk, h, Ne.symm h]
      · simp [hk, h, Ne.symm h]

theorem dictInsert_keys_nodup [DecidableEq κ] (k : κ) (v : β) (d : List (κ × β))
    (hd : (d.map Prod.fst).Nodup) : ((dictInsert k v d).map Prod.fst).Nodup := by
  rw [dictInsert_keys]
  split
  · exact hd
  · rename_i hk
    simp [List.nodup_append, hd, hk]

theorem dropDupFirstAux_not_mem_seen [DecidableEq κ] (key : α → κ) (seen : List κ)
    (l : List α) : ∀ x ∈ dropDupFirstAux key seen l, key x ∉ seen := by
  induction l generalizing seen with
  | nil => simp [dropDupFirstAux]
  | cons a t ih =>
    intro x hx
    simp only [dropDupFirstAux] at hx
    split at hx
    · exact ih seen x hx
    · rcases List.mem_cons.mp hx with rfl | hx
      · assumption
      · intro hmem
        exact ih (key a :: seen) x hx (List.mem_cons_of_mem _ hmem)

theorem dropDupFirstAux_keys_nodup [DecidableEq κ] (key : α → κ) (seen : List κ)
    (l : List α) : ((dropDupFirstAux key seen l).map key).Nodup := by
  induction l generalizing seen with
  | nil => simp [dropDupFirstAux]
  | cons a t ih =>
    simp only [dropDupFirstAux]
    split
    · exact ih seen
    · rw [List.map_cons, List.nodup_cons]
      refine ⟨?_, ih (key a :: seen)⟩
      intro hmem
      obtain ⟨x, hx, hkx⟩ := List.mem_map.mp hmem
      exact dropDupFirstAux_not_mem_seen key _ t x hx (hkx ▸ List.mem_cons_self _ _)

theorem dropDupFirst_keys_nodup [DecidableEq κ] (key : α → κ) (l : List α) :
    ((dropDupFirst key l).map key).Nodup :=
  dropDupFirstAux_keys_nodup key [] l

/-- Lower- and upper-bound facts about `List.foldl max`. -/
theorem le_foldl_max [LinearOrder α] (a : α) (l : List α) : a ≤ l.foldl max a := by
  induction l generalizing a with
  | nil => exact le_refl a
  | cons b t ih => exact le_trans (le_max_left a b) (ih (max a b))

theorem mem_le_foldl_max [LinearOrder α] (a x : α) (l : List α) (hx : x ∈ l) :
    x ≤ l.foldl max a := by
  induction l generalizing a with
  | nil => simp at hx
  | cons b t ih =>
    rcases List.mem_cons.mp hx with rfl | hx
    · exact le_trans (le_max_right a x) (le_foldl_max _ t)
    · exact ih (max a b) hx

theorem foldl_max_mem [LinearOrder α] (a : α) (l : List α) :
    l.foldl max a = a ∨ l.foldl max a ∈ l := by
  induction l generalizing a with
  | nil => exact Or.inl rfl
  | cons b t ih =>
    rcases ih (max a b) with h | h
    · rcases max_choice a b with hm | hm
      · exact Or.inl (h.trans hm)
      · exact Or.inr (List.mem_cons.mpr (Or.inl (h.trans hm)))
    · exact Or.inr (List.mem_cons_of_mem b h)

theorem foldl_min_le [LinearOrder α] (a : α) (l : List α) : l.foldl min a ≤ a := by
  induction l generalizing a with
  | nil => exact le_refl a
  | cons b t ih => exact le_trans (ih (min a b)) (min_le_left a b)

theorem foldl_min_le_mem [LinearOrder α] (a x : α) (l : List α) (hx : x ∈ l) :
    l.foldl min a ≤ x := by
  induction l generalizing a with
  | nil => simp at hx
  | cons b t ih =>
    rcases List.mem_cons.mp hx with rfl | hx
    · exact le_trans (foldl_min_le _ t) (min_le_right a x)
    · exact ih (min a b) hx

theorem foldl_min_mem [LinearOrder α] (a : α) (l : List α) :
    l.foldl min a = a ∨ l.foldl min a ∈ l := by
  induction l generalizing a with
  | nil => exact Or.inl rfl
  | cons b t ih =>
    rcases ih (min a b) with h | h
    · rcases min_choice a b with hm | hm
      · exact Or.inl (h.trans hm)
      · exact Or.inr (List.mem_cons.mpr (Or.inl (h.trans hm)))
    · exact Or.inr (List.mem_cons_of_mem b h)

/-- The ratio form of the 0.7-threshold test agrees with the `log10` form of
the source for positive ratios. -/
theorem gapBelowThreshold_iff_logb (r : ℚ) (hr : 0 < r) :
    gapBelowThreshold r ↔ Real.logb 10 (r : ℝ) < 7 / 10 := by
  have hr' : (0:ℝ) < (r:ℝ) := by exact_mod_cast hr
  have h10 : (1:ℝ) < 10 := by norm_num
  rw [Real.logb_lt_iff_lt_rpow h10 hr']
  have hpow : ((10:ℝ) ^ ((7:ℝ)/10)) ^ (10:ℕ) = 10 ^ (7:ℕ) := by
    rw [← Real.rpow_natCast ((10:ℝ) ^ ((7:ℝ)/10)) 10, ← Real.rpow_mul (by norm_num)]
    norm_num
  constructor
  · intro h
    have h' : (r:ℝ) ^ (10:ℕ) < 10 ^ (7:ℕ) := by exact_mod_cast h
    rw [← hpow] at h'
    exact lt_of_pow_lt_pow_left₀ 10 (by positivity) h'
  · intro h
    have h' : (r:ℝ) ^ (10:ℕ) < ((10:ℝ) ^ ((7:ℝ)/10)) ^ (10:ℕ) :=
      pow_lt_pow_left₀ h (le_of_lt hr') (by norm_num)
    rw [hpow] at h'
    exact_mod_cast h'

/-! ### Helper lemmas -/
theorem countP_filterMap_eq (f : α → Option β) (p : β → Bool) (l : List α) :
    (l.filterMap f).countP p = l.countP (fun x => ((f x).map p).getD false) := by
  induction l with
  | nil => rfl
  | cons a t ih =>
    cases hf : f a <;>
      simp [List.filterMap_cons, hf, List.countP_cons, ih]

theorem length_filterMap_eq (f : α → Option β) (l : List α) :
    (l.filterMap f).length = l.countP (fun x => (f x).isSome) := by
  induction l with
  | nil => rfl
  | cons a t ih =>
    cases hf : f a <;>
      simp [List.filterMap_cons, hf, List.countP_cons, ih]

theorem countP_lt_length_of_false (p : α → Bool) (l : List α) (x : α)
    (hx : x ∈ l) (hpx : p x = false) : l.countP p < l.length := by
  induction l with
  | nil => simp at hx
  | cons a t ih =>
    rw [List.countP_cons, List.length_cons]
    rcases List.mem_cons.mp hx with rfl | hx
    · have := List.countP_le_length (p := p) (l := t)
      simp [hpx]
      omega
    · have := ih hx
      split <;> omega

theorem count_filter_of_pos [DecidableEq α] (p : α → Bool) (l : List α) (x : α)
    (hpx : p x = true) : (l.filter p).count x = l.count x := by
  induction l with
  | nil => rfl
  | cons a t ih =>
    by_cases hax : a = x
    · subst hax
      rw [List.filter_cons, hpx]
      simp [List.count_cons, ih]
    · rw [List.filter_cons]
      split
      · simp [List.count_cons, hax, ih]
      · simp [List.count_cons, hax, ih]

/-! ### Claim theorems -/
/-- C8: the latest-snapshot filter `get_latest_data` returns exactly the rows
whose date-column value equals the maximum date present (with every tied row
retained, multiplicity included), and returns an empty table unchanged. -/
theorem C8_latest_snapshot {α : Type} [DecidableEq α] (rows : List α) (dateOf : α → ℚ) :
    get_latest_data ([] : List α) dateOf = [] ∧
    (∀ r, r ∈ get_latest_data rows dateOf ↔
      r ∈ rows ∧ dateOf r = tableMaxDate rows dateOf) ∧
    (∀ r, r ∈ rows → dateOf r = tableMaxDate rows dateOf →
      (get_latest_data rows dateOf).count r = rows.count r) := by
  refine ⟨rfl, ?_, ?_⟩
  · intro r
    cases rows with
    | nil => simp [get_latest_data]
    | cons r0 t =>
      simp only [get_latest_data, List.mem_filter, decide_eq_true_eq]
  · intro r hr hd
    cases rows with
    | nil => simp at hr
    | cons r0 t =>
      simp only [get_latest_data]
      exact count_filter_of_pos _ _ r (by simpa using hd)

/-- Witness for C8 at a concrete three-row table whose maximum date `2` is
shared by two rows. -/
theorem C8_latest_snapshot_witness :
    (get_latest_data [((1:ℚ), (0:ℕ)), (2, 0), (2, 1)] Prod.fst).count (2, 1) =
      [((1:ℚ), (0:ℕ)), (2, 0), (2, 1)].count (2, 1) :=
  (C8_latest_snapshot [((1:ℚ), (0:ℕ)), (2, 0), (2, 1)] Prod.fst).2.2 (2, 1)
    (by simp)
    (by simp [tableMaxDate])

/-- C5: the individual-bank position of `render_bank_tab` is the count of
rows whose value for the variable is strictly more extreme (greater when the
variable ranks descending, smaller when ascending) plus one, and its
denominator is the number of rows with a non-null value for the variable —
strictly fewer than the whole population as soon as one row is null there. -/
theorem C5_bank_position (t : WTable) (var : String) (v : ℚ) :
    bank_rank t var v =
      t.rows.countP (fun r =>
        ((getCell r var).map (fun w =>
          if isDescFor var then decide (v < w) else decide (w < v))).getD false) + 1 ∧
    bank_n t var = t.rows.countP (fun r => (getCell r var).isSome) ∧
    (∀ r ∈ t.rows, getCell r var = none → bank_n t var < t.rows.length) := by
  refine ⟨?_, ?_, ?_⟩
  · rw [bank_rank]
    cases hdesc : isDescFor var
    · simp only [Bool.false_eq_true, if_false]
      rw [bankVals, countP_filterMap_eq]
    · simp only [if_true]
      rw [bankVals, countP_filterMap_eq]
  · rw [bank_n, bankVals, length_filterMap_eq]
  · intro r hr hnone
    rw [bank_n, bankVals, length_filterMap_eq]
    exact countP_lt_length_of_false _ _ r hr (by simp [hnone])

/-- Witness for C5 at a concrete table: descending variable, three rows, one
null value, bank value 5 — rank 2 of 2. -/
theorem C5_bank_position_witness :
    bank_rank ⟨["Ativo Total"],
        [⟨"A", none, [("Ativo Total", 7)]⟩, ⟨"B", none, []⟩,
         ⟨"C", none, [("Ativo Total", 5)]⟩]⟩ "Ativo Total" 5 = 2 ∧
    bank_n ⟨["Ativo Total"],
        [⟨"A", none, [("Ativo Total", 7)]⟩, ⟨"B", none, []⟩,
         ⟨"C", none, [("Ativo Total", 5)]⟩]⟩ "Ativo Total" < 3 := by
  have h := C5_bank_position ⟨["Ativo Total"],
        [⟨"A", none, [("Ativo Total", 7)]⟩, ⟨"B", none, []⟩,
         ⟨"C", none, [("Ativo Total", 5)]⟩]⟩ "Ativo Total" 5
  refine ⟨?_, ?_⟩
  · rw [h.1]
    decide
  · exact h.2.2 ⟨"B", none, []⟩ (by decide) (by decide)

theorem mem_sortDescBy (l : List WRow) (var : String) (r : WRow) :
    r ∈ sortDescBy l var ↔ r ∈ l := mem_stableSort _ _ _

theorem mem_sortAscBy (l : List WRow) (var : String) (r : WRow) :
    r ∈ sortAscBy l var ↔ r ∈ l := mem_stableSort _ _ _

theorem mem_ite_sort (b : Prop) [Decidable b] (l : List WRow) (var : String) (r : WRow) :
    r ∈ (if b then sortDescBy l var else sortAscBy l var) ↔ r ∈ l := by
  split
  · exact mem_sortDescBy l var r
  · exact mem_sortAscBy l var r

theorem mem_ite_sort' (b : Prop) [Decidable b] (l : List WRow) (var : String) (r : WRow) :
    r ∈ (if b then sortAscBy l var else sortDescBy l var) ↔ r ∈ l := by
  split
  · exact mem_sortAscBy l var r
  · exact mem_sortDescBy l var r

/-- C9: every institution appearing in any top or bottom ranking table has
passed the materiality filter — whenever the respective column exists, its
(null-as-zero) equity exceeds 100 million, its credit operations exceed
200 million, and its total assets exceed 1 billion. -/
theorem C9_materiality (t : WTable) (var : String) (r : WRow)
    (hr : r ∈ df_top t var ∨ r ∈ df_bottom t var) :
    ("Patrimônio Líquido" ∈ t.cols →
      100000000 < (getCell r "Patrimônio Líquido").getD 0) ∧
    ("Operações de Crédito" ∈ t.cols →
      200000000 < (getCell r "Operações de Crédito").getD 0) ∧
    ("Ativo Total" ∈ t.cols →
      1000000000 < (getCell r "Ativo Total").getD 0) := by
  have hm : r ∈ dfVar (materialityFilter t) var := by
    rcases hr with h | h
    · exact (mem_ite_sort _ _ var r).mp (List.take_subset 10 _ h)
    · exact (mem_ite_sort' _ _ var r).mp (List.take_subset 10 _ h)
  have hrows : r ∈ (materialityFilter t).rows := (List.mem_filter.mp hm).1
  simp only [materialityFilter] at hrows
  have step3 :
      (r ∈ (if "Operações de Crédito" ∈ t.cols then
          (if "Patrimônio Líquido" ∈ t.cols then
            t.rows.filter (fun x => 100000000 < (getCell x "Patrimônio Líquido").getD 0)
          else t.rows).filter (fun x => 200000000 < (getCell x "Operações de Crédito").getD 0)
        else (if "Patrimônio Líquido" ∈ t.cols then
          t.rows.filter (fun x => 100000000 < (getCell x "Patrimônio Líquido").getD 0)
        else t.rows))) ∧
      ("Ativo Total" ∈ t.cols → 1000000000 < (getCell r "Ativo Total").getD 0) := by
    by_cases hAT : "Ativo Total" ∈ t.cols
    · rw [if_pos hAT] at hrows
      obtain ⟨h1, h2⟩ := List.mem_filter.mp hrows
      exact ⟨h1, fun _ => by simpa using h2⟩
    · rw [if_neg hAT] at hrows
      exact ⟨hrows, fun h => absurd h hAT⟩
  obtain ⟨hrows2, hAT⟩ := step3
  have step2 :
      (r ∈ (if "Patrimônio Líquido" ∈ t.cols then
          t.rows.filter (fun x => 100000000 < (getCell x "Patrimônio Líquido").getD 0)
        else t.rows)) ∧
      ("Operações de Crédito" ∈ t.cols →
        200000000 < (getCell r "Operações de Crédito").getD 0) := by
    by_cases hOC : "Operações de Crédito" ∈ t.cols
    · rw [if_pos hOC] at hrows2
      obtain ⟨h1, h2⟩ := List.mem_filter.mp hrows2
      exact ⟨h1, fun _ => by simpa using h2⟩
    · rw [if_neg hOC] at hrows2
      exact ⟨hrows2, fun h => absurd h hOC⟩
  obtain ⟨hrows1, hOC⟩ := step2
  have hPL : "Patrimônio Líquido" ∈ t.cols →
      100000000 < (getCell r "Patrimônio Líquido").getD 0 := by
    by_cases hc : "Patrimônio Líquido" ∈ t.cols
    · rw [if_pos hc] at hrows1
      exact fun _ => by simpa using (List.mem_filter.mp hrows1).2
    · exact fun h => absurd h hc
  exact ⟨hPL, hOC, hAT⟩

/-- Witness for C9 at a one-row table that clears all three thresholds. -/
theorem C9_materiality_witness :
    100000000 <
      (getCell ⟨"A", none,
        [("Ativo Total", 2000000000), ("Patrimônio Líquido", 300000000),
         ("Operações de Crédito", 500000000)]⟩ "Patrimônio Líquido").getD 0 :=
  (C9_materiality
    ⟨["Ativo Total", "Operações de Crédito", "Patrimônio Líquido"],
     [⟨"A", none,
        [("Ativo Total", 2000000000), ("Patrimônio Líquido", 300000000),
         ("Operações de Crédito", 500000000)]⟩]⟩ "Ativo Total"
    ⟨"A", none,
        [("Ativo Total", 2000000000), ("Patrimônio Líquido", 300000000),
         ("Operações de Crédito", 500000000)]⟩
    (Or.inl (by decide))).1 (by decide)

theorem filter_key_length_le_one [DecidableEq κ] (key : α → κ) (l : List α)
    (hnd : (l.map key).Nodup) (c : κ) :
    (l.filter (fun x => key x = c)).length ≤ 1 := by
  induction l with
  | nil => simp
  | cons a t ih =>
    rw [List.map_cons, List.nodup_cons] at hnd
    obtain ⟨hka, hndt⟩ := hnd
    rw [List.filter_cons]
    split
    · rename_i hac
      simp only [decide_eq_true_eq] at hac
      have hzero : t.filter (fun x => key x = c) = [] := by
        rw [List.filter_eq_nil_iff]
        intro x hx
        simp only [decide_eq_true_eq]
        intro hxc
        refine hka ?_
        rw [hac, ← hxc]
        exact List.mem_map_of_mem key hx
      simp [hzero]
    · exact ih hndt

theorem mergeNames_map_codInst (prows : List WRow) (cad : List CadRow)
    (hnd : (cad.map (·.codInst)).Nodup) :
    (mergeNames prows cad).map (·.codInst) = prows.map (·.codInst) := by
  induction prows with
  | nil => rfl
  | cons r t ih =>
    simp only [mergeNames] at ih ⊢
    rw [List.flatMap_cons, List.map_append, ih, List.map_cons]
    have hchunk : ((match cad.filter (fun c : CadRow => c.codInst = r.codInst) with
        | [] => [{ r with nome := none }]
        | m :: ms => (m :: ms).map
            (fun c : CadRow => { r with nome := some (cleanNome c.nomeInstituicao) })).map
          (fun w : WRow => w.codInst) : List String) = [r.codInst] := by
      cases hf : cad.filter (fun c : CadRow => c.codInst = r.codInst) with
      | nil => rfl
      | cons m ms =>
        have hlen := filter_key_length_le_one (·.codInst) cad hnd r.codInst
        rw [hf] at hlen
        have hms : ms = [] := by
          simp only [List.length_cons] at hlen
          exact List.eq_nil_of_length_eq_zero (by omega)
        subst hms
        rfl
    rw [hchunk]
    rfl

theorem pivotIndex_nodup (records : List Rec) : (pivotIndex records).Nodup := by
  have h1 : (dropDupFirst id (records.map (·.codInst))).Nodup := by
    have := dropDupFirst_keys_nodup id (records.map (·.codInst))
    simpa using this
  exact ((stableSort_perm _ _).nodup_iff).mpr h1

/-- C10: the Wide Analytical Table built by `build_ranking_data` on a
registry produced by `filter_institutions` has at most one row per `CodInst`:
the registry is de-duplicated on `CodInst`, the pivot indexes rows by
`CodInst`, and the left join therefore never duplicates a row. -/
theorem C10_unique_codinst (dfResumo dfAtivo : List VRow) (cad : List CadRow) :
    ((build_ranking_data dfResumo dfAtivo (filter_institutions cad)).rows.map
      (·.codInst)).Nodup := by
  simp only [build_ranking_data]
  split
  · simp
  · have hcad : ((filter_institutions cad).map (·.codInst)).Nodup := by
      rw [filter_institutions]
      exact dropDupFirst_keys_nodup _ _
    rw [mergeNames_map_codInst _ _ hcad, List.map_map]
    have hid : ((fun r : WRow => r.codInst) ∘
        (fun cod => (⟨cod, none,
          (pivotCols (buildRecords dfResumo dfAtivo
            ((filter_institutions cad).map (·.codInst)))).filterMap (fun v =>
              (pivotCell (buildRecords dfResumo dfAtivo
                ((filter_institutions cad).map (·.codInst))) cod v).map
                ((v, ·)))⟩ : WRow))) = id := rfl
    rw [hid, List.map_id]
    exact pivotIndex_nodup _

theorem ativoData_keys_aux (rows : List VRow) (vc : List String)
    (d : List (String × List (String × Option ℚ)))
    (hd : (d.map Prod.fst).Nodup) :
    ((rows.foldl (fun d row =>
      if row.codInst ∈ vc ∧ row.nomeColuna ∈ ativoTargets then
        dictInsert row.codInst
          (dictInsert row.nomeColuna row.saldo ((d.lookup row.codInst).getD [])) d
      else d) d).map Prod.fst).Nodup := by
  induction rows generalizing d with
  | nil => exact hd
  | cons row t ih =>
    rw [List.foldl_cons]
    split
    · exact ih _ (dictInsert_keys_nodup _ _ _ hd)
    · exact ih _ hd

theorem ativoData_keys_nodup (dfAtivo : List VRow) (vc : List String) :
    ((ativoData dfAtivo vc).map Prod.fst).Nodup :=
  ativoData_keys_aux dfAtivo vc [] (by simp)

theorem ativoChunk_codInst (cod : String) (vals : List (String × Option ℚ))
    (r : Rec) (hr : r ∈ ativoChunk cod vals) : r.codInst = cod := by
  rw [ativoChunk] at hr
  rcases List.mem_append.mp hr with h | h
  · split at h <;> simp_all
  · split at h
    · split at h <;> simp_all
    · simp_all

theorem ativoChunk_filter_pec (cod : String) (vals : List (String × Option ℚ)) :
    (ativoChunk cod vals).filter
        (fun r => r.codInst = cod ∧ r.varName = "Perda Esperada de Crédito") =
      match (vals.lookup ATIVO_COL_BRUTO).getD none,
            (vals.lookup ATIVO_COL_PERDA).getD none with
      | some b, some p =>
        if b ≠ 0 then
          [⟨cod, "Perda Esperada de Crédito", some (pyRound2 (|p| / b * 100))⟩]
        else []
      | _, _ => [] := by
  rw [ativoChunk, List.filter_append]
  have h1 : (match (vals.lookup ATIVO_COL_OP_CREDITO).getD none with
      | some v => [(⟨cod, "Operações de Crédito", some v⟩ : Rec)]
      | none => []).filter
        (fun r : Rec => r.codInst = cod ∧ r.varName = "Perda Esperada de Crédito") = [] := by
    split <;> simp
  rw [h1, List.nil_append]
  rcases hb : (vals.lookup ATIVO_COL_BRUTO).getD none with _ | b <;>
    rcases hp : (vals.lookup ATIVO_COL_PERDA).getD none with _ | p <;>
      simp only
  · rfl
  · rfl
  · rfl
  · split <;> simp

theorem flatMap_filter_pec (d : List (String × List (String × Option ℚ)))
    (cod : String) (hnd : (d.map Prod.fst).Nodup) :
    ((d.flatMap (fun p => ativoChunk p.1 p.2)).filter
        (fun r => r.codInst = cod ∧ r.varName = "Perda Esperada de Crédito")) =
      match d.lookup cod with
      | none => []
      | some vals =>
        match (vals.lookup ATIVO_COL_BRUTO).getD none,
              (vals.lookup ATIVO_COL_PERDA).getD none with
        | some b, some p =>
          if b ≠ 0 then
            [⟨cod, "Perda Esperada de Crédito", some (pyRound2 (|p| / b * 100))⟩]
          else []
        | _, _ => [] := by
  induction d with
  | nil => rfl
  | cons kv t ih =>
    obtain ⟨k, vals⟩ := kv
    rw [List.map_cons, List.nodup_cons] at hnd
    obtain ⟨hk, hndt⟩ := hnd
    rw [List.flatMap_cons, List.filter_append]
    by_cases hkc : k = cod
    · subst hkc
      have hrest : (t.flatMap (fun p => ativoChunk p.1 p.2)).filter
          (fun r => r.codInst = k ∧ r.varName = "Perda Esperada de Crédito") = [] := by
        rw [List.filter_eq_nil_iff]
        intro r hr
        obtain ⟨p, hp, hrp⟩ := List.mem_flatMap.mp hr
        have := ativoChunk_codInst p.1 p.2 r hrp
        simp only [decide_eq_true_eq, not_and]
        intro hrc _
        exact absurd (show k ∈ List.map Prod.fst t by
          rw [← hrc, this]; exact List.mem_map.mpr ⟨p, hp, rfl⟩) hk
      rw [hrest, List.append_nil, ativoChunk_filter_pec]
      have hlk : List.lookup k ((k, vals) :: t) = some vals := by
        simp [List.lookup]
      rw [hlk]
    · have hchunk : (ativoChunk k vals).filter
          (fun r => r.codInst = cod ∧ r.varName = "Perda Esperada de Crédito") = [] := by
        rw [List.filter_eq_nil_iff]
        intro r hr
        have := ativoChunk_codInst k vals r hr
        simp only [decide_eq_true_eq, not_and]
        intro hrc _
        exact absurd (this ▸ hrc) hkc
      have hbe : (cod == k) = false := beq_eq_false_iff_ne.mpr (Ne.symm hkc)
      have hlk : List.lookup cod ((k, vals) :: t) = List.lookup cod t := by
        simp [List.lookup, hbe]
      rw [hchunk, List.nil_append, hlk]
      exact ih hndt

theorem resumoRecords_varName (dfResumo : List VRow) (vc : List String) :
    ∀ r ∈ resumoRecords dfResumo vc, r.varName ∈ RESUMO_VARS := by
  intro r hr
  rw [resumoRecords] at hr
  obtain ⟨row, _, hsome⟩ := List.mem_filterMap.mp hr
  split at hsome
  · dsimp only at hsome
    split at hsome
    · rename_i hmem
      injection hsome with h
      subst h
      simpa using hmem
    · exact absurd hsome (by simp)
  · exact absurd hsome (by simp)

theorem resumoRecords_filter_pec (dfResumo : List VRow) (vc : List String) (cod : String) :
    (resumoRecords dfResumo vc).filter
      (fun r => r.codInst = cod ∧ r.varName = "Perda Esperada de Crédito") = [] := by
  rw [List.filter_eq_nil_iff]
  intro r hr
  have hv := resumoRecords_varName dfResumo vc r hr
  simp only [decide_eq_true_eq, not_and]
  intro _ hpec
  rw [hpec] at hv
  exact absurd hv (by decide)

/-- C6: the derived credit-loss-ratio variable (`Perda Esperada de Crédito`)
appears in the pivoted output for an entity iff both the gross-value and the
expected-loss components are present (non-null) and the denominator is
non-zero, in which case its value is `round(|loss| / gross * 100, 2)`; when a
component is missing or the denominator is zero no record is produced, so the
pivoted cell is empty — neither zero nor a null placeholder. -/
theorem C6_derived_ratio (dfResumo dfAtivo : List VRow) (cadF : List CadRow)
    (cod : String) (x : ℚ) :
    (pivotCell (buildRecords dfResumo dfAtivo (cadF.map (·.codInst))) cod
        "Perda Esperada de Crédito" = some x ↔
      ∃ vals b p,
        (ativoData dfAtivo (cadF.map (·.codInst))).lookup cod = some vals ∧
        (vals.lookup ATIVO_COL_BRUTO).getD none = some b ∧
        (vals.lookup ATIVO_COL_PERDA).getD none = some p ∧
        b ≠ 0 ∧ x = pyRound2 (|p| / b * 100)) ∧
    ((∀ vals b p,
        (ativoData dfAtivo (cadF.map (·.codInst))).lookup cod = some vals →
        (vals.lookup ATIVO_COL_BRUTO).getD none = some b →
        (vals.lookup ATIVO_COL_PERDA).getD none = some p → b = 0) →
      pivotCell (buildRecords dfResumo dfAtivo (cadF.map (·.codInst))) cod
        "Perda Esperada de Crédito" = none) := by
  have hnd : ((ativoData dfAtivo (cadF.map (·.codInst))).map Prod.fst).Nodup :=
    ativoData_keys_nodup _ _
  have hfil : (buildRecords dfResumo dfAtivo (cadF.map (·.codInst))).filter
      (fun r => r.codInst = cod ∧ r.varName = "Perda Esperada de Crédito") =
      match (ativoData dfAtivo (cadF.map (·.codInst))).lookup cod with
      | none => []
      | some vals =>
        match (vals.lookup ATIVO_COL_BRUTO).getD none,
              (vals.lookup ATIVO_COL_PERDA).getD none with
        | some b, some p =>
          if b ≠ 0 then
            [⟨cod, "Perda Esperada de Crédito", some (pyRound2 (|p| / b * 100))⟩]
          else []
        | _, _ => [] := by
    rw [buildRecords, List.filter_append, resumoRecords_filter_pec, List.nil_append,
      ativoRecords]
    exact flatMap_filter_pec _ cod hnd
  rcases hlk : (ativoData dfAtivo (cadF.map (·.codInst))).lookup cod with _ | vals
  · rw [hlk] at hfil
    dsimp only at hfil
    constructor
    · rw [pivotCell, hfil]
      simp [hlk]
    · intro _
      rw [pivotCell, hfil]
      rfl
  · rw [hlk] at hfil
    dsimp only at hfil
    rcases hb : (vals.lookup ATIVO_COL_BRUTO).getD none with _ | b <;>
      rcases hp : (vals.lookup ATIVO_COL_PERDA).getD none with _ | p <;>
        rw [hb, hp] at hfil <;> dsimp only at hfil
    · constructor
      · rw [pivotCell, hfil]
        simp only [List.filterMap_nil, List.head?_nil]
        constructor
        · intro h
          exact absurd h (by simp)
        · rintro ⟨vals', b', p', hlk', hb', _, _, _⟩
          rw [hlk] at hlk'
          injection hlk' with hv
          subst hv
          rw [hb] at hb'
          exact absurd hb' (by simp)
      · intro _
        rw [pivotCell, hfil]
        rfl
    · constructor
      · rw [pivotCell, hfil]
        simp only [List.filterMap_nil, List.head?_nil]
        constructor
        · intro h
          exact absurd h (by simp)
        · rintro ⟨vals', b', p', hlk', hb', _, _, _⟩
          rw [hlk] at hlk'
          injection hlk' with hv
          subst hv
          rw [hb] at hb'
          exact absurd hb' (by simp)
      · intro _
        rw [pivotCell, hfil]
        rfl
    · constructor
      · rw [pivotCell, hfil]
        simp only [List.filterMap_nil, List.head?_nil]
        constructor
        · intro h
          exact absurd h (by simp)
        · rintro ⟨vals', b', p', hlk', _, hp', _, _⟩
          rw [hlk] at hlk'
          injection hlk' with hv
          subst hv
          rw [hp] at hp'
          exact absurd hp' (by simp)
      · intro _
        rw [pivotCell, hfil]
        rfl
    · by_cases hbz : b = 0
      · rw [if_neg (by simpa using hbz)] at hfil
        constructor
        · rw [pivotCell, hfil]
          simp only [List.filterMap_nil, List.head?_nil]
          constructor
          · intro h
            exact absurd h (by simp)
          · rintro ⟨vals', b', p', hlk', hb', _, hbz', _⟩
            rw [hlk] at hlk'
            injection hlk' with hv
            subst hv
            rw [hb] at hb'
            injection hb' with hbb
            exact (hbz' (hbb ▸ hbz)).elim
        · intro _
          rw [pivotCell, hfil]
          rfl
      · rw [if_pos (by simpa using hbz)] at hfil
        constructor
        · rw [pivotCell, hfil]
          simp only [List.filterMap_cons, List.filterMap_nil]
          constructor
          · intro h
            refine ⟨vals, b, p, hlk, hb, hp, hbz, ?_⟩
            simpa using h.symm
          · rintro ⟨vals', b', p', hlk', hb', hp', _, hx⟩
            rw [hlk] at hlk'
            injection hlk' with hv
            subst hv
            rw [hb] at hb'
            rw [hp] at hp'
            injection hb' with hbb
            injection hp' with hpp
            subst hbb
            subst hpp
            simpa using hx.symm
        · intro hall
          exact absurd (hall vals b p hlk hb hp) hbz

/-- Witness for C6: one institution with gross value 1000 and expected loss
50 yields a pivoted loss-ratio cell of 5 (%). -/
theorem C6_derived_ratio_witness :
    pivotCell
      (buildRecords []
        [⟨"B1", ATIVO_COL_BRUTO, some 1000⟩, ⟨"B1", ATIVO_COL_PERDA, some 50⟩]
        (([⟨"B1", "X", "S1"⟩] : List CadRow).map (·.codInst))) "B1"
      "Perda Esperada de Crédito" = some 5 :=
  ((C6_derived_ratio []
      [⟨"B1", ATIVO_COL_BRUTO, some 1000⟩, ⟨"B1", ATIVO_COL_PERDA, some 50⟩]
      [⟨"B1", "X", "S1"⟩] "B1" 5).1).mpr
    ⟨[(ATIVO_COL_BRUTO, some 1000), (ATIVO_COL_PERDA, some 50)], 1000, 50,
      by decide, by decide, by decide, by norm_num,
      by norm_num [pyRound2, pyRoundHalfEven]⟩

/-- Counterexample for C2: two institutions tied at value 5. The second tied
row sits at position 2 of the stable full ranking, while the
strictly-more-extreme count formula yields 1 for it, so the two rank
computations disagree on ties. -/
theorem C2_rank_consistency_counterexample :
    (⟨"B", some "B", [("X", 5)]⟩ : WRow) ∈
      dfVar ⟨["X"], [⟨"A", some "A", [("X", 5)]⟩, ⟨"B", some "B", [("X", 5)]⟩]⟩ "X" ∧
    positionInRanking ⟨["X"], [⟨"A", some "A", [("X", 5)]⟩, ⟨"B", some "B", [("X", 5)]⟩]⟩
      "X" ⟨"B", some "B", [("X", 5)]⟩ = 2 ∧
    (dfVar ⟨["X"], [⟨"A", some "A", [("X", 5)]⟩, ⟨"B", some "B", [("X", 5)]⟩]⟩ "X").countP
      (fun x =>
        if isDescFor "X" then
          decide ((getCell (⟨"B", some "B", [("X", 5)]⟩ : WRow) "X").getD 0 <
            (getCell x "X").getD 0)
        else
          decide ((getCell x "X").getD 0 <
            (getCell (⟨"B", some "B", [("X", 5)]⟩ : WRow) "X").getD 0)) + 1 = 1 := by
  decide

theorem sortDescBy_pairwise (l : List WRow) (var : String) :
    (sortDescBy l var).Pairwise
      (fun x y => (getCell y var).getD 0 ≤ (getCell x var).getD 0) := by
  rw [sortDescBy]
  exact stableSort_pairwise
    (fun a b : WRow => (getCell b var).getD 0 ≤ (getCell a var).getD 0)
    (fun _ _ h => le_of_not_le h) (fun _ _ _ h1 h2 => le_trans h2 h1) l

theorem sortAscBy_pairwise (l : List WRow) (var : String) :
    (sortAscBy l var).Pairwise
      (fun x y => (getCell x var).getD 0 ≤ (getCell y var).getD 0) := by
  rw [sortAscBy]
  exact stableSort_pairwise
    (fun a b : WRow => (getCell a var).getD 0 ≤ (getCell b var).getD 0)
    (fun _ _ h => le_of_not_le h) (fun _ _ _ h1 h2 => le_trans h1 h2) l

theorem sortDescBy_perm (l : List WRow) (var : String) : (sortDescBy l var).Perm l :=
  stableSort_perm _ l

theorem sortAscBy_perm (l : List WRow) (var : String) : (sortAscBy l var).Perm l :=
  stableSort_perm _ l

theorem countP_ext_mem (p q : α → Bool) (l : List α) (h : ∀ a ∈ l, p a = q a) :
    l.countP p = l.countP q := by
  induction l with
  | nil => rfl
  | cons a t ih =>
    rw [List.countP_cons, List.countP_cons, h a (by simp),
      ih (fun x hx => h x (List.mem_cons_of_mem a hx))]

/-- C2 (amended): for every entity whose non-null value is distinct from the
values of all the other non-null rows of the variable (the other rows may be
tied among themselves), the entity's 1-based position in the stable full
ranking (in the variable's configured direction) equals the count of
strictly more extreme rows plus 1. A tied entity can violate the identity
(see the counterexample). -/
theorem C2_rank_consistency_amended (t : WTable) (var : String) (r : WRow)
    (hu : ∀ x ∈ dfVar t var,
      (getCell x var).getD 0 = (getCell r var).getD 0 → x = r)
    (hr : r ∈ dfVar t var) :
    positionInRanking t var r =
      (dfVar t var).countP (fun x =>
        if isDescFor var then
          decide ((getCell r var).getD 0 < (getCell x var).getD 0)
        else
          decide ((getCell x var).getD 0 < (getCell r var).getD 0)) + 1 := by
  rw [positionInRanking]
  congr 1
  cases hdesc : isDescFor var
  · simp only [fullRanking, hdesc, Bool.false_eq_true, if_false]
    have hpw : (sortAscBy (dfVar t var) var).Pairwise
        (fun x y => (fun z : WRow => -((getCell z var).getD 0)) y ≤
          (fun z : WRow => -((getCell z var).getD 0)) x) :=
      (sortAscBy_pairwise (dfVar t var) var).imp (fun h => neg_le_neg h)
    have hperm := sortAscBy_perm (dfVar t var) var
    have hu' : ∀ x ∈ sortAscBy (dfVar t var) var,
        (fun z : WRow => -((getCell z var).getD 0)) x =
          (fun z : WRow => -((getCell z var).getD 0)) r → x = r :=
      fun x hx h => hu x ((mem_sortAscBy (dfVar t var) var x).mp hx) (neg_inj.mp h)
    have hmem := (mem_sortAscBy (dfVar t var) var r).mpr hr
    have hidx := indexOf_eq_countP_gt (fun z : WRow => -((getCell z var).getD 0)) r _
      hpw hu' hmem
    rw [hidx, hperm.countP_eq]
    exact countP_ext_mem _ _ _ (fun a _ => by simp [decide_eq_decide])
  · simp only [fullRanking, hdesc, if_true]
    have hpw : (sortDescBy (dfVar t var) var).Pairwise
        (fun x y => (fun z : WRow => (getCell z var).getD 0) y ≤
          (fun z : WRow => (getCell z var).getD 0) x) :=
      sortDescBy_pairwise (dfVar t var) var
    have hperm := sortDescBy_perm (dfVar t var) var
    have hu' : ∀ x ∈ sortDescBy (dfVar t var) var,
        (fun z : WRow => (getCell z var).getD 0) x =
          (fun z : WRow => (getCell z var).getD 0) r → x = r :=
      fun x hx h => hu x ((mem_sortDescBy (dfVar t var) var x).mp hx) h
    have hmem := (mem_sortDescBy (dfVar t var) var r).mpr hr
    have hidx := indexOf_eq_countP_gt (fun z : WRow => (getCell z var).getD 0) r _
      hpw hu' hmem
    rw [hidx, hperm.countP_eq]

/-- Witness for C2 (amended) at a three-row table where the entity's value 5
is unique while the two OTHER rows are tied at 7: the entity's position 3
agrees with the strict-count formula, ties among other rows allowed. -/
theorem C2_rank_consistency_amended_witness :
    positionInRanking
      ⟨["X"], [⟨"A", some "A", [("X", 5)]⟩, ⟨"B", some "B", [("X", 7)]⟩,
        ⟨"C", some "C", [("X", 7)]⟩]⟩
      "X" ⟨"A", some "A", [("X", 5)]⟩ =
      (dfVar ⟨["X"], [⟨"A", some "A", [("X", 5)]⟩, ⟨"B", some "B", [("X", 7)]⟩,
          ⟨"C", some "C", [("X", 7)]⟩]⟩ "X").countP
        (fun x =>
          if isDescFor "X" then
            decide ((getCell (⟨"A", some "A", [("X", 5)]⟩ : WRow) "X").getD 0 <
              (getCell x "X").getD 0)
          else
            decide ((getCell x "X").getD 0 <
              (getCell (⟨"A", some "A", [("X", 5)]⟩ : WRow) "X").getD 0)) + 1 :=
  C2_rank_consistency_amended
    ⟨["X"], [⟨"A", some "A", [("X", 5)]⟩, ⟨"B", some "B", [("X", 7)]⟩,
      ⟨"C", some "C", [("X", 7)]⟩]⟩ "X"
    ⟨"A", some "A", [("X", 5)]⟩ (by decide) (by decide)

theorem duax_tie_eval :
    should_use_dual_axis [("A", [some 1]), ("B", [some 100])] ["A", "B"] =
      (true, ["B"], ["A"]) := by
  have hA : colAbsMean [("A", [some 1]), ("B", [some 100])] "A" = some 1 := by
    have hxs : ((List.lookup "A" [("A", [some 1]), ("B", [some 100])]).getD
        []).filterMap id = [(1 : ℚ)] := rfl
    rw [colAbsMean, hxs]
    norm_num
  have hB : colAbsMean [("A", [some 1]), ("B", [some 100])] "B" = some 100 := by
    have hxs : ((List.lookup "B" [("A", [some 1]), ("B", [some 100])]).getD
        []).filterMap id = [(100 : ℚ)] := rfl
    rw [colAbsMean, hxs]
    norm_num
  have hmeans : duaxMeans [("A", [some 1]), ("B", [some 100])] ["A", "B"] =
      [("A", 1), ("B", 100)] := by
    rw [duaxMeans]
    rw [List.filterMap_cons, List.filterMap_cons, List.filterMap_nil, hA, hB]
    norm_num
  have hsorted : duaxSorted [("A", [some 1]), ("B", [some 100])] ["A", "B"] =
      [("A", 1), ("B", 100)] := by
    rw [duaxSorted, hmeans]
    norm_num [stableSort, insertSorted]
  have hbest : duaxBest [("A", [some 1]), ("B", [some 100])] ["A", "B"] = (100, 1) := by
    rw [duaxBest, hsorted]
    norm_num [consecRatios, gapScanAux]
  rw [should_use_dual_axis]
  rw [if_neg (by norm_num), if_neg (by rw [hmeans]; norm_num),
    if_neg (by rw [duaxMaxMean, duaxMinMean, hsorted]; norm_num),
    if_neg (by rw [hbest]; norm_num [gapBelowThreshold]),
    if_pos (by simp [duaxGroupLow, duaxGroupHigh, hsorted, hbest])]
  simp [duaxGroupLow, duaxGroupHigh, hsorted, hbest]

/-- Counterexample for C1: means 1 and 100 split into two singleton groups —
an exact tie in membership count — and the code returns the high-magnitude
group `["B"]` as PRIMARY and the low-magnitude group `["A"]` as secondary,
whereas the claim demands the high-magnitude group to become secondary on a
tie. -/
theorem C1_tie_counterexample :
    duaxGroupLow [("A", [some 1]), ("B", [some 100])] ["A", "B"] = ["A"] ∧
    duaxGroupHigh [("A", [some 1]), ("B", [some 100])] ["A", "B"] = ["B"] ∧
    should_use_dual_axis [("A", [some 1]), ("B", [some 100])] ["A", "B"] =
      (true, ["B"], ["A"]) := by
  refine ⟨?_, ?_, duax_tie_eval⟩
  · have hA : colAbsMean [("A", [some 1]), ("B", [some 100])] "A" = some 1 := by
      have hxs : ((List.lookup "A" [("A", [some 1]), ("B", [some 100])]).getD
          []).filterMap id = [(1 : ℚ)] := rfl
      rw [colAbsMean, hxs]
      norm_num
    have hB : colAbsMean [("A", [some 1]), ("B", [some 100])] "B" = some 100 := by
      have hxs : ((List.lookup "B" [("A", [some 1]), ("B", [some 100])]).getD
          []).filterMap id = [(100 : ℚ)] := rfl
      rw [colAbsMean, hxs]
      norm_num
    have hmeans : duaxMeans [("A", [some 1]), ("B", [some 100])] ["A", "B"] =
        [("A", 1), ("B", 100)] := by
      rw [duaxMeans]
      rw [List.filterMap_cons, List.filterMap_cons, List.filterMap_nil, hA, hB]
      norm_num
    have hsorted : duaxSorted [("A", [some 1]), ("B", [some 100])] ["A", "B"] =
        [("A", 1), ("B", 100)] := by
      rw [duaxSorted, hmeans]
      norm_num [stableSort, insertSorted]
    have hbest : duaxBest [("A", [some 1]), ("B", [some 100])] ["A", "B"] = (100, 1) := by
      rw [duaxBest, hsorted]
      norm_num [consecRatios, gapScanAux]
    simp [duaxGroupLow, hsorted, hbest]
  · have hA : colAbsMean [("A", [some 1]), ("B", [some 100])] "A" = some 1 := by
      have hxs : ((List.lookup "A" [("A", [some 1]), ("B", [some 100])]).getD
          []).filterMap id = [(1 : ℚ)] := rfl
      rw [colAbsMean, hxs]
      norm_num
    have hB : colAbsMean [("A", [some 1]), ("B", [some 100])] "B" = some 100 := by
      have hxs : ((List.lookup "B" [("A", [some 1]), ("B", [some 100])]).getD
          []).filterMap id = [(100 : ℚ)] := rfl
      rw [colAbsMean, hxs]
      norm_num
    have hmeans : duaxMeans [("A", [some 1]), ("B", [some 100])] ["A", "B"] =
        [("A", 1), ("B", 100)] := by
      rw [duaxMeans]
      rw [List.filterMap_cons, List.filterMap_cons, List.filterMap_nil, hA, hB]
      norm_num
    have hsorted : duaxSorted [("A", [some 1]), ("B", [some 100])] ["A", "B"] =
        [("A", 1), ("B", 100)] := by
      rw [duaxSorted, hmeans]
      norm_num [stableSort, insertSorted]
    have hbest : duaxBest [("A", [some 1]), ("B", [some 100])] ["A", "B"] = (100, 1) := by
      rw [duaxBest, hsorted]
      norm_num [consecRatios, gapScanAux]
    simp [duaxGroupHigh, hsorted, hbest]

/-- C1 (amended): whenever the partitioner splits, the returned groups are
exactly the low- and high-magnitude groups, the secondary group is never
larger than the primary one, and on an exact tie in membership count the
HIGH-magnitude group becomes primary and the low-magnitude group secondary. -/
theorem C1_primary_secondary_amended (df : DFrame) (columns : List String)
    (p s : List String)
    (h : should_use_dual_axis df columns = (true, p, s)) :
    s.length ≤ p.length ∧
    ((p = duaxGroupHigh df columns ∧ s = duaxGroupLow df columns) ∨
     (p = duaxGroupLow df columns ∧ s = duaxGroupHigh df columns)) ∧
    (p.length = s.length →
      p = duaxGroupHigh df columns ∧ s = duaxGroupLow df columns) := by
  rw [should_use_dual_axis] at h
  split at h
  · exact absurd h (by simp)
  · split at h
    · exact absurd h (by simp)
    · split at h
      · exact absurd h (by simp)
      · split at h
        · exact absurd h (by simp)
        · split at h
          · rename_i hle
            obtain ⟨hp, hs⟩ : duaxGroupHigh df columns = p ∧ duaxGroupLow df columns = s := by
              simpa using h
            subst hp
            subst hs
            exact ⟨hle, Or.inl ⟨rfl, rfl⟩, fun _ => ⟨rfl, rfl⟩⟩
          · rename_i hgt
            obtain ⟨hp, hs⟩ : duaxGroupLow df columns = p ∧ duaxGroupHigh df columns = s := by
              simpa using h
            subst hp
            subst hs
            have hlt : (duaxGroupHigh df columns).length <
                (duaxGroupLow df columns).length := by
              omega
            exact ⟨le_of_lt hlt, Or.inr ⟨rfl, rfl⟩,
              fun heq => absurd heq.symm (ne_of_lt hlt)⟩

/-- Witness for C1 (amended) at the tie input: the high-magnitude group
`["B"]` is primary and the low-magnitude group `["A"]` secondary. -/
theorem C1_primary_secondary_amended_witness :
    (["A"] : List String).length ≤ (["B"] : List String).length ∧
    ((["B"] = duaxGroupHigh [("A", [some 1]), ("B", [some 100])] ["A", "B"] ∧
      ["A"] = duaxGroupLow [("A", [some 1]), ("B", [some 100])] ["A", "B"]) ∨
     (["B"] = duaxGroupLow [("A", [some 1]), ("B", [some 100])] ["A", "B"] ∧
      ["A"] = duaxGroupHigh [("A", [some 1]), ("B", [some 100])] ["A", "B"])) ∧
    ((["B"] : List String).length = (["A"] : List String).length →
      ["B"] = duaxGroupHigh [("A", [some 1]), ("B", [some 100])] ["A", "B"] ∧
      ["A"] = duaxGroupLow [("A", [some 1]), ("B", [some 100])] ["A", "B"]) :=
  C1_primary_secondary_amended [("A", [some 1]), ("B", [some 100])] ["A", "B"]
    ["B"] ["A"] duax_tie_eval

theorem duax_spec_example_eval :
    should_use_dual_axis [("V1", [some 1]), ("V2", [some (6/5)]), ("V3", [some 50])]
        ["V1", "V2", "V3"] =
      (true, ["V1", "V2"], ["V3"]) := by
  have hA : colAbsMean [("V1", [some 1]), ("V2", [some (6/5)]), ("V3", [some 50])]
      "V1" = some 1 := by
    have hxs : ((List.lookup "V1"
        [("V1", [some 1]), ("V2", [some (6/5)]), ("V3", [some 50])]).getD
        []).filterMap id = [(1 : ℚ)] := rfl
    rw [colAbsMean, hxs]
    norm_num
  have hB : colAbsMean [("V1", [some 1]), ("V2", [some (6/5)]), ("V3", [some 50])]
      "V2" = some (6/5) := by
    have hxs : ((List.lookup "V2"
        [("V1", [some 1]), ("V2", [some (6/5)]), ("V3", [some 50])]).getD
        []).filterMap id = [(6/5 : ℚ)] := rfl
    rw [colAbsMean, hxs]
    norm_num
  have hC : colAbsMean [("V1", [some 1]), ("V2", [some (6/5)]), ("V3", [some 50])]
      "V3" = some 50 := by
    have hxs : ((List.lookup "V3"
        [("V1", [some 1]), ("V2", [some (6/5)]), ("V3", [some 50])]).getD
        []).filterMap id = [(50 : ℚ)] := rfl
    rw [colAbsMean, hxs]
    norm_num
  have hmeans : duaxMeans [("V1", [some 1]), ("V2", [some (6/5)]), ("V3", [some 50])]
      ["V1", "V2", "V3"] = [("V1", 1), ("V2", 6/5), ("V3", 50)] := by
    rw [duaxMeans]
    rw [List.filterMap_cons, List.filterMap_cons, List.filterMap_cons,
      List.filterMap_nil, hA, hB, hC]
    norm_num
  have hsorted : duaxSorted [("V1", [some 1]), ("V2", [some (6/5)]), ("V3", [some 50])]
      ["V1", "V2", "V3"] = [("V1", 1), ("V2", 6/5), ("V3", 50)] := by
    rw [duaxSorted, hmeans]
    norm_num [stableSort, insertSorted]
  have hbest : duaxBest [("V1", [some 1]), ("V2", [some (6/5)]), ("V3", [some 50])]
      ["V1", "V2", "V3"] = (125/3, 2) := by
    rw [duaxBest, hsorted]
    norm_num [consecRatios, gapScanAux]
  rw [should_use_dual_axis]
  rw [if_neg (by norm_num), if_neg (by rw [hmeans]; norm_num),
    if_neg (by rw [duaxMaxMean, duaxMinMean, hsorted]; norm_num),
    if_neg (by rw [hbest]; norm_num [gapBelowThreshold]),
    if_neg (by simp [duaxGroupLow, duaxGroupHigh, hsorted, hbest])]
  simp [duaxGroupLow, duaxGroupHigh, hsorted, hbest]

/-- C7: for means `[1, 1.2, 50]` the partitioner splits with `{1, 1.2}`
primary and `{50}` secondary; for means `[1, 2, 3]` no split occurs; and in
general no split occurs when fewer than 2 variables have a positive mean,
when the largest-to-smallest mean ratio is at most 5, or when the largest
consecutive log10 gap is below the 0.7 threshold (the ratio form
`r ^ 10 < 10 ^ 7`, equivalent by `gapBelowThreshold_iff_logb`). -/
theorem C7_axis_split_threshold :
    (should_use_dual_axis [("V1", [some 1]), ("V2", [some (6/5)]), ("V3", [some 50])]
        ["V1", "V2", "V3"] =
      (true, ["V1", "V2"], ["V3"])) ∧
    (should_use_dual_axis [("V1", [some 1]), ("V2", [some 2]), ("V3", [some 3])]
        ["V1", "V2", "V3"] =
      (false, ["V1", "V2", "V3"], [])) ∧
    (∀ (df : DFrame) (columns : List String),
      (duaxMeans df columns).length < 2 →
      should_use_dual_axis df columns = (false, columns, [])) ∧
    (∀ (df : DFrame) (columns : List String),
      duaxMaxMean df columns / duaxMinMean df columns ≤ 5 →
      should_use_dual_axis df columns = (false, columns, [])) ∧
    (∀ (df : DFrame) (columns : List String),
      gapBelowThreshold (duaxBest df columns).1 →
      should_use_dual_axis df columns = (false, columns, [])) := by
  refine ⟨duax_spec_example_eval, ?_, ?_, ?_, ?_⟩
  · have hA : colAbsMean [("V1", [some 1]), ("V2", [some 2]), ("V3", [some 3])]
        "V1" = some 1 := by
      have hxs : ((List.lookup "V1"
          [("V1", [some 1]), ("V2", [some 2]), ("V3", [some 3])]).getD
          []).filterMap id = [(1 : ℚ)] := rfl
      rw [colAbsMean, hxs]
      norm_num
    have hB : colAbsMean [("V1", [some 1]), ("V2", [some 2]), ("V3", [some 3])]
        "V2" = some 2 := by
      have hxs : ((List.lookup "V2"
          [("V1", [some 1]), ("V2", [some 2]), ("V3", [some 3])]).getD
          []).filterMap id = [(2 : ℚ)] := rfl
      rw [colAbsMean, hxs]
      norm_num
    have hC : colAbsMean [("V1", [some 1]), ("V2", [some 2]), ("V3", [some 3])]
        "V3" = some 3 := by
      have hxs : ((List.lookup "V3"
          [("V1", [some 1]), ("V2", [some 2]), ("V3", [some 3])]).getD
          []).filterMap id = [(3 : ℚ)] := rfl
      rw [colAbsMean, hxs]
      norm_num
    have hmeans : duaxMeans [("V1", [some 1]), ("V2", [some 2]), ("V3", [some 3])]
        ["V1", "V2", "V3"] = [("V1", 1), ("V2", 2), ("V3", 3)] := by
      rw [duaxMeans]
      rw [List.filterMap_cons, List.filterMap_cons, List.filterMap_cons,
        List.filterMap_nil, hA, hB, hC]
      norm_num
    have hsorted : duaxSorted [("V1", [some 1]), ("V2", [some 2]), ("V3", [some 3])]
        ["V1", "V2", "V3"] = [("V1", 1), ("V2", 2), ("V3", 3)] := by
      rw [duaxSorted, hmeans]
      norm_num [stableSort, insertSorted]
    rw [should_use_dual_axis]
    rw [if_neg (by norm_num), if_neg (by rw [hmeans]; norm_num),
      if_pos (by rw [duaxMaxMean, duaxMinMean, hsorted]; norm_num)]
  · intro df columns hlen
    rw [should_use_dual_axis]
    split_ifs <;> rfl
  · intro df columns hratio
    rw [should_use_dual_axis]
    split_ifs <;> rfl
  · intro df columns hgap
    rw [should_use_dual_axis]
    split_ifs <;> rfl

/-- Witness for C7: a frame with a single qualifying variable takes the
fewer-than-2 exit. -/
theorem C7_axis_split_threshold_witness :
    should_use_dual_axis [("A", [some 1])] ["A"] = (false, ["A"], []) := by
  refine C7_axis_split_threshold.2.2.1 [("A", [some 1])] ["A"] ?_
  have hA : colAbsMean [("A", [some 1])] "A" = some 1 := by
    have hxs : ((List.lookup "A" [("A", [some 1])]).getD []).filterMap id =
        [(1 : ℚ)] := rfl
    rw [colAbsMean, hxs]
    norm_num
  rw [duaxMeans, List.filterMap_cons, List.filterMap_nil, hA]
  norm_num

theorem seriesLoKey_le_hiKey (key : SDate → ℕ) (p : SDate × ℚ) (t : List (SDate × ℚ)) :
    seriesLoKey key (p :: t) ≤ seriesHiKey key (p :: t) := by
  rw [seriesLoKey, seriesHiKey]
  simp only [List.map_cons]
  exact le_trans (foldl_min_le (key p.1) (t.map (fun q => key q.1)))
    (le_foldl_max (key p.1) (t.map (fun q => key q.1)))

theorem mem_resampleBy (key : SDate → ℕ) (s : List (SDate × ℚ)) (k : ℕ) (v : Option ℚ) :
    (k, v) ∈ resampleBy key s ↔
      s ≠ [] ∧ seriesLoKey key s ≤ k ∧ k ≤ seriesHiKey key s ∧
        v = (if (periodCells key s k).isEmpty then none
             else some ((periodCells key s k).sum / (periodCells key s k).length)) := by
  cases s with
  | nil => simp [resampleBy]
  | cons p t =>
    have hlohi := seriesLoKey_le_hiKey key p t
    simp only [resampleBy, List.mem_map, List.mem_range'_1]
    constructor
    · rintro ⟨j, ⟨hj1, hj2⟩, heq⟩
      obtain ⟨hjk, hv⟩ := Prod.mk.injEq .. ▸ heq
      subst hjk
      exact ⟨by simp, hj1, by omega, hv.symm⟩
    · rintro ⟨_, h1, h2, hv⟩
      exact ⟨k, ⟨h1, by omega⟩, by rw [← hv]⟩

/-- C3 (amended): resampling a date-indexed series to monthly or annual
frequency lays out every period between the first and the last observation;
each emitted period carries the arithmetic mean of the observations falling
in it, and a period within that span that contains no observations is
emitted as a null row (present with a missing value) — it is not absent. -/
theorem C3_resample_amended (s : List (SDate × ℚ)) (k : ℕ) (v : Option ℚ) :
    (∀ out, resample_data s "M" = some out →
      ((k, v) ∈ out ↔
        s ≠ [] ∧ seriesLoKey monthKey s ≤ k ∧ k ≤ seriesHiKey monthKey s ∧
          v = (if (periodCells monthKey s k).isEmpty then none
               else some ((periodCells monthKey s k).sum /
                 (periodCells monthKey s k).length)))) ∧
    (∀ out, resample_data s "A" = some out →
      ((k, v) ∈ out ↔
        s ≠ [] ∧ seriesLoKey yearKey s ≤ k ∧ k ≤ seriesHiKey yearKey s ∧
          v = (if (periodCells yearKey s k).isEmpty then none
               else some ((periodCells yearKey s k).sum /
                 (periodCells yearKey s k).length)))) := by
  constructor
  · intro out hout
    have h : out = resampleBy monthKey s := by
      simpa [resample_data] using hout.symm
    subst h
    exact mem_resampleBy monthKey s k v
  · intro out hout
    have h : out = resampleBy yearKey s := by
      simpa [resample_data] using hout.symm
    subst h
    exact mem_resampleBy yearKey s k v

/-- Witness for C3 (amended): a two-observation series (Jan and Mar 2020)
contains the January bin with the mean of its single observation. -/
theorem C3_resample_amended_witness :
    (24240, (some 1 : Option ℚ)) ∈
      resampleBy monthKey [(⟨2020, 1, 15⟩, (1:ℚ)), (⟨2020, 3, 15⟩, 2)] :=
  ((C3_resample_amended [(⟨2020, 1, 15⟩, (1:ℚ)), (⟨2020, 3, 15⟩, 2)] 24240
      (some 1)).1 _ rfl).mpr
    ⟨by decide, by decide, by decide, by
      rw [show periodCells monthKey [(⟨2020, 1, 15⟩, (1:ℚ)), (⟨2020, 3, 15⟩, 2)] 24240
        = [1] from rfl]
      norm_num⟩

/-- Counterexample for C3: for observations in January and March 2020, the
February bin (key 24241) has no observations, yet the monthly resample emits
it as a null row — the claim that such a period is absent from the output is
false. -/
theorem C3_resample_counterexample :
    periodCells monthKey [(⟨2020, 1, 15⟩, (1:ℚ)), (⟨2020, 3, 15⟩, 2)] 24241 = [] ∧
    (24241, (none : Option ℚ)) ∈
      resampleBy monthKey [(⟨2020, 1, 15⟩, (1:ℚ)), (⟨2020, 3, 15⟩, 2)] ∧
    resample_data [(⟨2020, 1, 15⟩, (1:ℚ)), (⟨2020, 3, 15⟩, 2)] "M" =
      some (resampleBy monthKey [(⟨2020, 1, 15⟩, (1:ℚ)), (⟨2020, 3, 15⟩, 2)]) := by
  refine ⟨rfl, ?_, rfl⟩
  have hval : resampleBy monthKey [(⟨2020, 1, 15⟩, (1:ℚ)), (⟨2020, 3, 15⟩, 2)] =
      [(24240, some 1), (24241, none), (24242, some 2)] := by
    rw [resampleBy]
    rw [show seriesLoKey monthKey [(⟨2020, 1, 15⟩, (1:ℚ)), (⟨2020, 3, 15⟩, 2)]
      = 24240 from rfl]
    rw [show seriesHiKey monthKey [(⟨2020, 1, 15⟩, (1:ℚ)), (⟨2020, 3, 15⟩, 2)]
      = 24242 from rfl]
    rw [show (24242 + 1 - 24240 : ℕ) = 3 from rfl]
    rw [show List.range' 24240 3 = [24240, 24241, 24242] from rfl]
    rw [List.map_cons, List.map_cons, List.map_cons, List.map_nil]
    rw [show periodCells monthKey [(⟨2020, 1, 15⟩, (1:ℚ)), (⟨2020, 3, 15⟩, 2)] 24240
      = [1] from rfl]
    rw [show periodCells monthKey [(⟨2020, 1, 15⟩, (1:ℚ)), (⟨2020, 3, 15⟩, 2)] 24241
      = [] from rfl]
    rw [show periodCells monthKey [(⟨2020, 1, 15⟩, (1:ℚ)), (⟨2020, 3, 15⟩, 2)] 24242
      = [2] from rfl]
    norm_num
  rw [hval]
  simp

theorem lookup_region_of_mem (uf : String) (hin : uf ∈ ALL_STATES) :
    STATE_TO_REGION.lookup uf = some ((STATE_TO_REGION.lookup uf).getD "") := by
  fin_cases hin <;> rfl

theorem self_mem_regionNpls (sd : StateData) (uf : String) (hin : uf ∈ ALL_STATES)
    (v : ℚ) (hv : nplAvg sd uf = some v) :
    v ∈ regionNpls sd ((STATE_TO_REGION.lookup uf).getD "") := by
  rw [regionNpls]
  refine List.mem_filterMap.mpr ⟨uf, ?_, hv⟩
  refine List.mem_filter.mpr ⟨hin, ?_⟩
  exact decide_eq_true (lookup_region_of_mem uf hin)

/-- C4 (amended): for a state of the map, a missing value yields the neutral
factor 1/2; when the region's min is strictly below its max the factor is the
normalised `(value - min) / (max - min)` and lies in `[0, 1]`; but when the
region's min equals its max (including a single-state region) the range
defaults to `(0, 1)` and the factor equals the state's RAW value — it is not
1/2 and need not lie in `[0, 1]`. -/
theorem C4_shading_amended (sd : StateData) (uf : String) (hin : uf ∈ ALL_STATES) :
    (nplAvg sd uf = none → state_factor sd uf = 1 / 2) ∧
    (∀ v v0 vs, nplAvg sd uf = some v →
      regionNpls sd ((STATE_TO_REGION.lookup uf).getD "") = v0 :: vs →
      (vs.foldl min v0 < vs.foldl max v0 →
        state_factor sd uf =
          (v - vs.foldl min v0) / (vs.foldl max v0 - vs.foldl min v0) ∧
        0 ≤ state_factor sd uf ∧ state_factor sd uf ≤ 1) ∧
      (¬ vs.foldl min v0 < vs.foldl max v0 → state_factor sd uf = v)) := by
  constructor
  · intro hnone
    rw [state_factor, hnone]
  · intro v v0 vs hv hvals
    have hvmem : v ∈ v0 :: vs := hvals ▸ self_mem_regionNpls sd uf hin v hv
    have hmn : vs.foldl min v0 ≤ v := by
      rcases List.mem_cons.mp hvmem with rfl | hmem
      · exact foldl_min_le v vs
      · exact foldl_min_le_mem v0 v vs hmem
    have hmx : v ≤ vs.foldl max v0 := by
      rcases List.mem_cons.mp hvmem with rfl | hmem
      · exact le_foldl_max v vs
      · exact mem_le_foldl_max v0 v vs hmem
    constructor
    · intro hlt
      have hrng : regionRange sd ((STATE_TO_REGION.lookup uf).getD "") =
          (vs.foldl min v0, vs.foldl max v0) := by
        rw [regionRange, hvals]
        simp only [if_pos hlt]
      have hsf : state_factor sd uf =
          (v - vs.foldl min v0) / (vs.foldl max v0 - vs.foldl min v0) := by
        rw [state_factor, hv, hrng]
        dsimp only
        rw [if_pos hlt]
      refine ⟨hsf, ?_, ?_⟩
      · rw [hsf]
        exact div_nonneg (sub_nonneg.mpr hmn) (le_of_lt (sub_pos.mpr hlt))
      · rw [hsf]
        rw [div_le_one (sub_pos.mpr hlt)]
        exact sub_le_sub_right hmx _
    · intro hnlt
      have hrng : regionRange sd ((STATE_TO_REGION.lookup uf).getD "") = (0, 1) := by
        rw [regionRange, hvals]
        simp only [if_neg hnlt]
      rw [state_factor, hv, hrng]
      norm_num

/-- Counterexample for C4: when every state of a region carries the same
value (here 3, region CO), the region's min equals its max, the range
defaults to `(0, 1)`, and the state's factor becomes the RAW value 3 — not
0.5, and outside `[0, 1]` — contradicting the claim. -/
theorem C4_shading_counterexample :
    regionNpls [("DF", (some 3, none)), ("GO", (some 3, none)),
        ("MT", (some 3, none)), ("MS", (some 3, none))] "CO" = [3, 3, 3, 3] ∧
    nplAvg [("DF", (some 3, none)), ("GO", (some 3, none)),
        ("MT", (some 3, none)), ("MS", (some 3, none))] "DF" = some 3 ∧
    state_factor [("DF", (some 3, none)), ("GO", (some 3, none)),
        ("MT", (some 3, none)), ("MS", (some 3, none))] "DF" = 3 ∧
    ¬ state_factor [("DF", (some 3, none)), ("GO", (some 3, none)),
        ("MT", (some 3, none)), ("MS", (some 3, none))] "DF" ≤ 1 ∧
    state_factor [("DF", (some 3, none)), ("GO", (some 3, none)),
        ("MT", (some 3, none)), ("MS", (some 3, none))] "DF" ≠ 1 / 2 := by
  have hDF : nplAvg [("DF", (some 3, none)), ("GO", (some 3, none)),
      ("MT", (some 3, none)), ("MS", (some 3, none))] "DF" = some 3 := by
    rw [nplAvg]
    rw [show (List.lookup "DF" [("DF", (some 3, none)), ("GO", (some 3, none)),
      ("MT", (some 3, none)), ("MS", (some 3, none))]).getD (none, none) =
      ((some (3:ℚ)), (none : Option ℚ)) from rfl]
    norm_num [List.filterMap_cons, List.filterMap_nil]
  have hGO : nplAvg [("DF", (some 3, none)), ("GO", (some 3, none)),
      ("MT", (some 3, none)), ("MS", (some 3, none))] "GO" = some 3 := by
    rw [nplAvg]
    rw [show (List.lookup "GO" [("DF", (some 3, none)), ("GO", (some 3, none)),
      ("MT", (some 3, none)), ("MS", (some 3, none))]).getD (none, none) =
      ((some (3:ℚ)), (none : Option ℚ)) from rfl]
    norm_num [List.filterMap_cons, List.filterMap_nil]
  have hMS : nplAvg [("DF", (some 3, none)), ("GO", (some 3, none)),
      ("MT", (some 3, none)), ("MS", (some 3, none))] "MS" = some 3 := by
    rw [nplAvg]
    rw [show (List.lookup "MS" [("DF", (some 3, none)), ("GO", (some 3, none)),
      ("MT", (some 3, none)), ("MS", (some 3, none))]).getD (none, none) =
      ((some (3:ℚ)), (none : Option ℚ)) from rfl]
    norm_num [List.filterMap_cons, List.filterMap_nil]
  have hMT : nplAvg [("DF", (some 3, none)), ("GO", (some 3, none)),
      ("MT", (some 3, none)), ("MS", (some 3, none))] "MT" = some 3 := by
    rw [nplAvg]
    rw [show (List.lookup "MT" [("DF", (some 3, none)), ("GO", (some 3, none)),
      ("MT", (some 3, none)), ("MS", (some 3, none))]).getD (none, none) =
      ((some (3:ℚ)), (none : Option ℚ)) from rfl]
    norm_num [List.filterMap_cons, List.filterMap_nil]
  have hfil : ALL_STATES.filter
      (fun uf => STATE_TO_REGION.lookup uf = some "CO") = ["DF", "GO", "MS", "MT"] := rfl
  have hnpls : regionNpls [("DF", (some 3, none)), ("GO", (some 3, none)),
      ("MT", (some 3, none)), ("MS", (some 3, none))] "CO" = [3, 3, 3, 3] := by
    rw [regionNpls, hfil]
    simp [List.filterMap_cons, hDF, hGO, hMS, hMT]
  have hrange : regionRange [("DF", (some 3, none)), ("GO", (some 3, none)),
      ("MT", (some 3, none)), ("MS", (some 3, none))] "CO" = (0, 1) := by
    rw [regionRange, hnpls]
    norm_num
  have hsf : state_factor [("DF", (some 3, none)), ("GO", (some 3, none)),
      ("MT", (some 3, none)), ("MS", (some 3, none))] "DF" = 3 := by
    rw [state_factor]
    rw [show (List.lookup "DF" STATE_TO_REGION).getD "" = "CO" from rfl]
    rw [hDF, hrange]
    norm_num
  exact ⟨hnpls, hDF, hsf, by rw [hsf]; norm_num, by rw [hsf]; norm_num⟩

/-- Witness for C4 (amended): in a region with values 1 and 3 the factor of
the minimum state is normalised into `[0, 1]`. -/
theorem C4_shading_amended_witness :
    0 ≤ state_factor [("AC", (some 1, none)), ("AM", (some 3, none))] "AC" ∧
    state_factor [("AC", (some 1, none)), ("AM", (some 3, none))] "AC" ≤ 1 := by
  have hAC : nplAvg [("AC", (some 1, none)), ("AM", (some 3, none))] "AC" = some 1 := by
    rw [nplAvg]
    rw [show (List.lookup "AC" [("AC", (some 1, none)), ("AM", (some 3, none))]).getD
      (none, none) = ((some (1:ℚ)), (none : Option ℚ)) from rfl]
    norm_num [List.filterMap_cons, List.filterMap_nil]
  have hAM : nplAvg [("AC", (some 1, none)), ("AM", (some 3, none))] "AM" = some 3 := by
    rw [nplAvg]
    rw [show (List.lookup "AM" [("AC", (some 1, none)), ("AM", (some 3, none))]).getD
      (none, none) = ((some (3:ℚ)), (none : Option ℚ)) from rfl]
    norm_num [List.filterMap_cons, List.filterMap_nil]
  have hrest : ∀ uf ∈ (["AP", "PA", "RO", "RR", "TO"] : List String),
      nplAvg [("AC", (some 1, none)), ("AM", (some 3, none))] uf = none := by
    intro uf huf
    fin_cases huf <;> rfl
  have hfil : ALL_STATES.filter
      (fun uf => STATE_TO_REGION.lookup uf = some "N") =
        ["AC", "AM", "AP", "PA", "RO", "RR", "TO"] := rfl
  have hnpls : regionNpls [("AC", (some 1, none)), ("AM", (some 3, none))]
      ((STATE_TO_REGION.lookup "AC").getD "") = 1 :: [3] := by
    rw [show (List.lookup "AC" STATE_TO_REGION).getD "" = "N" from rfl]
    rw [regionNpls, hfil]
    simp [List.filterMap_cons, hAC, hAM,
      hrest "AP" (by simp), hrest "PA" (by simp), hrest "RO" (by simp),
      hrest "RR" (by simp), hrest "TO" (by simp)]
  have h := ((C4_shading_amended [("AC", (some 1, none)), ("AM", (some 3, none))] "AC"
      (by decide)).2 1 1 [3] hAC hnpls).1 (by norm_num)
  exact ⟨h.2.1, h.2.2⟩
